import Mathlib

/-!
# Shallow embedding of the bn254 PLONK prover core

This file embeds the PLONK prover of `internal/backend/bn254/plonk`
(`ProveRaw` and its helpers) together with the curve hint
`std/algebra/emulated/sw_emulated/hints.go`, and proves the specification
claims about them.

Modelling conventions:

* `fr.Element` (the bn254 scalar field) is modelled by an arbitrary field
  `F`; the gnark-crypto convention `Inverse(0) = 0` coincides with
  Mathlib's `DivisionRing` convention `0⁻¹ = 0`, so `Div` is field
  division.
* Go slices of field elements are Lean `List F`; `make([]fr.Element, n)`
  is `List.replicate n 0`, element writes are `List.set`, element reads
  are `List.getD _ 0` (Go would panic out of range; all claims carry the
  in-range hypotheses under which the two agree).
* External collaborators (FFT routines, the commitment scheme, the hash
  inside the Fiat–Shamir transcript, polynomial evaluation) live in
  gnark-crypto, outside this repository; they are abstract parameters
  collected in the `Prims` structure.  Go's `PublicRaw` carries the
  commitment scheme as a field; the embedding splits that capability into
  `Prims` and keeps in `PublicRaw` the data fields the prover reads.
* Go's `(value, error)` returns are `Except Err value`; the Fiat–Shamir
  transcript records a trace of its operations so that ordering claims
  can be stated.
-/

set_option maxHeartbeats 1000000

namespace Plonk

/-- FFT evaluation domain, modelling gnark-crypto's `fft.Domain`; only the
fields the prover reads are kept. -/
structure Domain (F : Type) where
  Cardinality : Nat
  Generator : F
  FinerGenerator : F

/-- Preprocessed public data (`PublicRaw`): domains, coset shifters, selector
polynomials in canonical basis, permutation polynomials in canonical
(`CS1..CS3`) and Lagrange (`LS1..LS3`) basis.  The commitment-scheme
capability that the Go struct also carries is modelled separately in
`Prims`. -/
structure PublicRaw (F : Type) where
  DomainNum : Domain F
  DomainH : Domain F
  Shifter : F × F
  Ql : List F
  Qr : List F
  Qm : List F
  Qo : List F
  Qk : List F
  CS1 : List F
  CS2 : List F
  CS3 : List F
  LS1 : List F
  LS2 : List F
  LS3 : List F

/-- A wire reference: only `VariableID()` is read by the prover. -/
structure Term where
  VariableID : Nat

/-- One SR1CS constraint / assertion: the three wire references. -/
structure PlonkConstraint where
  L : Term
  R : Term
  O : Term

/-- The sparse R1CS, with the fields and the `Solve` method `ProveRaw`
uses.  `Solve` returns, Go-style, a solution vector together with an
optional error. -/
structure SparseR1CS (F W E : Type) where
  NbPublicVariables : Nat
  Constraints : List PlonkConstraint
  Assertions : List PlonkConstraint
  Solve : W → List F × Option E

/-- Default wire triple used for out-of-range constraint reads (Go would
panic there; claims carry in-range hypotheses). -/
def cZero : PlonkConstraint := ⟨⟨0⟩, ⟨0⟩, ⟨0⟩⟩

/-- One iteration of the placeholder loop of `ComputeLRO`:
`l[i] = solution[i]`, `r[i] = o[i] = solution[0]`, `partialL` untouched. -/
def lroPublicStep {F : Type} [Field F] (solution : List F)
    (st : List F × List F × List F × List F) (i : Nat) :
    List F × List F × List F × List F :=
  (st.1.set i (solution.getD i 0),
   st.2.1.set i (solution.getD 0 0),
   st.2.2.1.set i (solution.getD 0 0),
   st.2.2.2)

/-- One iteration of the constraint (or, with `cs := Assertions`, the
assertion) loop of `ComputeLRO`: wire values from the solution at the
gate's variable IDs, and `partialL[offset+i] = l[offset+i]` (Go reads the
just-written cell of l back). -/
def lroGateStep {F : Type} [Field F] (cs : List PlonkConstraint)
    (solution : List F) (offset : Nat)
    (st : List F × List F × List F × List F) (i : Nat) :
    List F × List F × List F × List F :=
  let l' := st.1.set (offset + i)
    (solution.getD (cs.getD i cZero).L.VariableID 0)
  (l',
   st.2.1.set (offset + i)
     (solution.getD (cs.getD i cZero).R.VariableID 0),
   st.2.2.1.set (offset + i)
     (solution.getD (cs.getD i cZero).O.VariableID 0),
   st.2.2.2.set (offset + i) (l'.getD (offset + i) 0))

/-- One iteration of the tail-padding loop of `ComputeLRO`: all wires take
`solution[0]`, `partialL` tracks l. -/
def lroTailStep {F : Type} [Field F] (solution : List F) (offset : Nat)
    (st : List F × List F × List F × List F) (i : Nat) :
    List F × List F × List F × List F :=
  let l' := st.1.set (offset + i) (solution.getD 0 0)
  (l',
   st.2.1.set (offset + i) (solution.getD 0 0),
   st.2.2.1.set (offset + i) (solution.getD 0 0),
   st.2.2.2.set (offset + i) (l'.getD (offset + i) 0))

/-- `ComputeLRO` extracts the solution l, r, o (and the public-input-free
copy `partialL` of l) in Lagrange form.  Direct transcription of the four
write loops of the Go function: placeholders for public inputs, constraint
rows, assertion rows, tail padding to the domain cardinality. -/
def ComputeLRO {F : Type} [Field F] {W E : Type} (spr : SparseR1CS F W E)
    (publicData : PublicRaw F) (solution : List F) :
    List F × List F × List F × List F :=
  let s := publicData.DomainNum.Cardinality
  let init : List F × List F × List F × List F :=
    (List.replicate s 0, List.replicate s 0, List.replicate s 0, List.replicate s 0)
  let st1 := (List.range spr.NbPublicVariables).foldl
    (lroPublicStep solution) init
  let offset1 := spr.NbPublicVariables
  let st2 := (List.range spr.Constraints.length).foldl
    (lroGateStep spr.Constraints solution offset1) st1
  let offset2 := offset1 + spr.Constraints.length
  let st3 := (List.range spr.Assertions.length).foldl
    (lroGateStep spr.Assertions solution offset2) st2
  let offset3 := offset2 + spr.Assertions.length
  let st4 := (List.range (s - offset3)).foldl
    (lroTailStep solution offset3) st3
  st4

/-- Proof helper: the placeholder loop of `ComputeLRO` after `k` steps. -/
def lroFoldPublic {F : Type} [Field F] (solution : List F)
    (st : List F × List F × List F × List F) (k : Nat) :
    List F × List F × List F × List F :=
  (List.range k).foldl (lroPublicStep solution) st

/-- Proof helper: a gate loop of `ComputeLRO` after `k` steps. -/
def lroFoldGate {F : Type} [Field F] (cs : List PlonkConstraint)
    (solution : List F) (offset : Nat)
    (st : List F × List F × List F × List F) (k : Nat) :
    List F × List F × List F × List F :=
  (List.range k).foldl (lroGateStep cs solution offset) st

/-- Proof helper: the tail loop of `ComputeLRO` after `k` steps. -/
def lroFoldTail {F : Type} [Field F] (solution : List F) (offset : Nat)
    (st : List F × List F × List F × List F) (k : Nat) :
    List F × List F × List F × List F :=
  (List.range k).foldl (lroTailStep solution offset) st

/-- One iteration of the `ComputeZ` loop: from state `(z, u₀, u₁, u₂)`
write `z[i+1] = z[i]·f₀/g₀` and advance the three running powers by the
domain generator.  Field division is Go's `Div` via `Inverse`, which maps
0 to 0 — exactly Mathlib's `x / 0 = 0`. -/
def computeZStep {F : Type} [Field F] (l r o : List F)
    (publicData : PublicRaw F) (gamma : F) (st : List F × F × F × F)
    (i : Nat) : List F × F × F × F :=
  let z := st.1
  let u0 := st.2.1
  let u1 := st.2.2.1
  let u2 := st.2.2.2
  let f0 := (l.getD i 0 + u0 + gamma) * (r.getD i 0 + u1 + gamma) *
    (o.getD i 0 + u2 + gamma)
  let g0 := (l.getD i 0 + publicData.LS1.getD i 0 + gamma) *
    (r.getD i 0 + publicData.LS2.getD i 0 + gamma) *
    (o.getD i 0 + publicData.LS3.getD i 0 + gamma)
  (z.set (i + 1) (z.getD i 0 * f0 / g0),
   u0 * publicData.DomainNum.Generator,
   u1 * publicData.DomainNum.Generator,
   u2 * publicData.DomainNum.Generator)

/-- `ComputeZ` computes the permutation accumulator Z in Lagrange basis:
`z[0] = 1` and the loop of `computeZStep` for `i ∈ [0, m-1)`, with running
powers `u₀ = ω^i`, `u₁ = k₁ω^i`, `u₂ = k₂ω^i`.  The Go function returns
no error. -/
def ComputeZ {F : Type} [Field F] (l r o : List F) (publicData : PublicRaw F)
    (gamma : F) : List F :=
  let nbElmts := publicData.DomainNum.Cardinality
  let z0 : List F := (List.replicate nbElmts 0).set 0 1
  let res := (List.range (nbElmts - 1)).foldl
    (computeZStep l r o publicData gamma)
    (z0, 1, publicData.Shifter.1, publicData.Shifter.2)
  res.1

/-- The state of the `ComputeZ` loop after `k` iterations (proof helper). -/
def computeZIter {F : Type} [Field F] (l r o : List F)
    (publicData : PublicRaw F) (gamma : F) (k : Nat) : List F × F × F × F :=
  (List.range k).foldl (computeZStep l r o publicData gamma)
    ((List.replicate publicData.DomainNum.Cardinality 0).set 0 1, 1,
      publicData.Shifter.1, publicData.Shifter.2)

/-- `shiftZ` turns z into z(uX) (both in Lagrange basis): transcription of
the Go loop that saves `res[0]`, shifts every cell down by one, and writes
the saved head into the last cell. -/
def shiftZ {F : Type} [Field F] (z : List F) : List F :=
  let res := z
  let buf := res.getD 0 0
  let res := (List.range (res.length - 1)).foldl
    (fun r i => r.set i (r.getD (i + 1) 0)) res
  res.set (res.length - 1) buf

/-- Go's `copy(dst, src)`: overwrite the first `min (length dst) (length src)`
cells of `dst` with `src`, keep the rest of `dst`. -/
def copyInto {F : Type} (dst src : List F) : List F :=
  src.take dst.length ++ dst.drop src.length

/-- External collaborator capabilities (all outside this repository, in
gnark-crypto): coset FFTs and bit-reversal, the commitment scheme with
its digest serialisation, the hash behind the Fiat–Shamir challenges, the
byte-to-field map `SetBytes`, and canonical polynomial evaluation.
`D` digests, `B` byte strings, `BP` batch opening proofs, `OP` opening
proofs, `Err` errors. -/
structure Prims (F D B BP OP Err : Type) where
  FFT : Domain F → List F → Nat → List F
  FFTInverse : Domain F → List F → Nat → List F
  BitReverse : List F → List F
  Commit : List F → Except Err D
  Marshal : D → B
  HashChallenge : String → List B → B
  SetBytes : B → F
  EvalPoly : List F → F → F
  BatchOpenSinglePoint : F → List D → List (List F) → Except Err BP
  OpenProofAt : F → List F → Except Err OP
  TranscriptFailure : Err

variable {F D B BP OP Err W E : Type}

/-- `evaluateCosets` evaluates a canonical polynomial on the four odd
cosets of `(Z/8mZ)/(Z/mZ)`: copy the polynomial into four length-m
buffers, coset-FFT with exponents 1, 3, 5, 7, bit-reverse, then
interleave so coset j's i-th value lands at index `4i+j` of the result
buffer (allocated zeroed by the caller in Go). -/
def evaluateCosets [Field F] (P : Prims F D B BP OP Err) (poly : List F)
    (domain : Domain F) : List F :=
  let c := domain.Cardinality
  let base : List F := copyInto (List.replicate c 0) poly
  let e0 := P.BitReverse (P.FFT domain base 1)
  let e1 := P.BitReverse (P.FFT domain base 3)
  let e2 := P.BitReverse (P.FFT domain base 5)
  let e3 := P.BitReverse (P.FFT domain base 7)
  (List.range c).foldl
    (fun res i =>
      (((res.set (4 * i) (e0.getD i 0)).set (4 * i + 1) (e1.getD i 0)).set
        (4 * i + 2) (e2.getD i 0)).set (4 * i + 3) (e3.getD i 0))
    (List.replicate (4 * c) 0)

/-- `evalConstraints` computes `ql·L + qr·R + qm·L·R + qo·O + qk` on the odd
cosets, coset-evaluating the five selector polynomials first. -/
def evalConstraints [Field F] (P : Prims F D B BP OP Err)
    (publicData : PublicRaw F) (evalL evalR evalO : List F) : List F :=
  let n := 4 * publicData.DomainNum.Cardinality
  let evalQl := evaluateCosets P publicData.Ql publicData.DomainNum
  let evalQr := evaluateCosets P publicData.Qr publicData.DomainNum
  let evalQm := evaluateCosets P publicData.Qm publicData.DomainNum
  let evalQo := evaluateCosets P publicData.Qo publicData.DomainNum
  let evalQk := evaluateCosets P publicData.Qk publicData.DomainNum
  (List.range n).foldl
    (fun res i =>
      res.set i (evalQl.getD i 0 * evalL.getD i 0 +
        evalQr.getD i 0 * evalR.getD i 0 +
        evalQm.getD i 0 * evalL.getD i 0 * evalR.getD i 0 +
        evalQo.getD i 0 * evalO.getD i 0 + evalQk.getD i 0))
    (List.replicate n 0)

/-- `evalIDCosets` evaluates the identity polynomial `X` (and its `k₁`, `k₂`
multiples) analytically on the four odd cosets, in the `4i+j` interleaved
layout. -/
def evalIDCosets [Field F] (publicData : PublicRaw F) :
    List F × List F × List F :=
  let c := publicData.DomainNum.Cardinality
  let id0 : List F := ((((List.replicate (4 * c) 0).set 0 1).set 1 1).set 2 1).set 3 1
  let id1 := (List.range (c - 1)).foldl
    (fun a k =>
      let i := k + 1
      let a' := a.set (4 * i)
        (a.getD (4 * (i - 1)) 0 * publicData.DomainNum.Generator)
      ((a'.set (4 * i + 1) (a'.getD (4 * i) 0)).set (4 * i + 2)
        (a'.getD (4 * i) 0)).set (4 * i + 3) (a'.getD (4 * i) 0))
    id0
  let uu := publicData.DomainNum.FinerGenerator * publicData.DomainNum.FinerGenerator
  let u0 := publicData.DomainNum.FinerGenerator
  let u1 := u0 * uu
  let u2 := u1 * uu
  let u3 := u2 * uu
  (List.range c).foldl
    (fun (st : List F × List F × List F) i =>
      let a := st.1
      let a := a.set (4 * i) (a.getD (4 * i) 0 * u0)
      let a := a.set (4 * i + 1) (a.getD (4 * i + 1) 0 * u1)
      let a := a.set (4 * i + 2) (a.getD (4 * i + 2) 0 * u2)
      let a := a.set (4 * i + 3) (a.getD (4 * i + 3) 0 * u3)
      let b1 := st.2.1
      let b1 := b1.set (4 * i) (a.getD (4 * i) 0 * publicData.Shifter.1)
      let b1 := b1.set (4 * i + 1) (a.getD (4 * i + 1) 0 * publicData.Shifter.1)
      let b1 := b1.set (4 * i + 2) (a.getD (4 * i + 2) 0 * publicData.Shifter.1)
      let b1 := b1.set (4 * i + 3) (a.getD (4 * i + 3) 0 * publicData.Shifter.1)
      let b2 := st.2.2
      let b2 := b2.set (4 * i) (a.getD (4 * i) 0 * publicData.Shifter.2)
      let b2 := b2.set (4 * i + 1) (a.getD (4 * i + 1) 0 * publicData.Shifter.2)
      let b2 := b2.set (4 * i + 2) (a.getD (4 * i + 2) 0 * publicData.Shifter.2)
      let b2 := b2.set (4 * i + 3) (a.getD (4 * i + 3) 0 * publicData.Shifter.2)
      (a, b1, b2))
    (id1, List.replicate (4 * c) 0, List.replicate (4 * c) 0)

/-- `evalConstraintOrdering` computes `Z(uX)g₁g₂g₃ − Z(X)f₁f₂f₃` on the odd
cosets, coset-evaluating `CS1, CS2, CS3` first. -/
def evalConstraintOrdering [Field F] (P : Prims F D B BP OP Err)
    (publicData : PublicRaw F) (evalZ evalZu evalL evalR evalO : List F)
    (gamma : F) : List F :=
  let evalS1 := evaluateCosets P publicData.CS1 publicData.DomainNum
  let evalS2 := evaluateCosets P publicData.CS2 publicData.DomainNum
  let evalS3 := evaluateCosets P publicData.CS3 publicData.DomainNum
  let ids := evalIDCosets publicData
  let n := 4 * publicData.DomainNum.Cardinality
  (List.range n).foldl
    (fun res i =>
      let f := (evalL.getD i 0 + ids.1.getD i 0 + gamma) *
        (evalR.getD i 0 + ids.2.1.getD i 0 + gamma) *
        (evalO.getD i 0 + ids.2.2.getD i 0 + gamma) * evalZ.getD i 0
      let g := (evalL.getD i 0 + evalS1.getD i 0 + gamma) *
        (evalR.getD i 0 + evalS2.getD i 0 + gamma) *
        (evalO.getD i 0 + evalS3.getD i 0 + gamma) * evalZu.getD i 0
      res.set i (g - f))
    (List.replicate n 0)

/-- `evalStartsAtOne` computes `L₁·(Z − 1)` on the odd cosets: build the
Lagrange `L₁`, convert to canonical (inverse FFT, no coset, then
bit-reverse), coset-evaluate, multiply pointwise by `Z − 1`. -/
def evalStartsAtOne [Field F] (P : Prims F D B BP OP Err)
    (publicData : PublicRaw F) (evalZ : List F) : List F :=
  let lOneLagrange : List F :=
    (List.replicate publicData.DomainNum.Cardinality 0).set 0 1
  let lOne := P.BitReverse (P.FFTInverse publicData.DomainNum lOneLagrange 0)
  let res0 := evaluateCosets P lOne publicData.DomainNum
  (List.range (4 * publicData.DomainNum.Cardinality)).foldl
    (fun res i => res.set i ((evalZ.getD i 0 - 1) * res.getD i 0)) res0

/-- One iteration of the Horner-combination loop of `computeH`:
`h[i] = (startsAtOne[i]·α + constraintOrdering[i])·α + constraintsInd[i]`. -/
def hornerStep {F : Type} [Field F]
    (constraintsInd constraintOrdering startsAtOne : List F) (alpha : F)
    (h : List F) (i : Nat) : List F :=
  h.set i ((startsAtOne.getD i 0 * alpha + constraintOrdering.getD i 0) *
    alpha + constraintsInd.getD i 0)

/-- One iteration of the vanishing-division loop of `computeH`: multiply
the block `h[4i..4i+3]` by the cached coset inverses `v₀..v₃`. -/
def vanishingDivStep {F : Type} [Field F] (v0 v1 v2 v3 : F) (h : List F)
    (i : Nat) : List F :=
  (((h.set (4 * i) (h.getD (4 * i) 0 * v0)).set (4 * i + 1)
      (h.getD (4 * i + 1) 0 * v1)).set (4 * i + 2)
      (h.getD (4 * i + 2) 0 * v2)).set (4 * i + 3)
      (h.getD (4 * i + 3) 0 * v3)

/-- `computeH` combines the three constraint evaluations with α (Horner),
divides by the vanishing polynomial `X^m − 1` on each coset (four cached
inverses at ν, ν³, ν⁵, ν⁷), inverse-FFTs on `DomainH` with coset exponent
1, bit-reverses, and returns the three length-m slices of the canonical
result (the last quarter is discarded). -/
def computeH [Field F] (P : Prims F D B BP OP Err) (publicData : PublicRaw F)
    (constraintsInd constraintOrdering startsAtOne : List F) (alpha : F) :
    List F × List F × List F :=
  let h0 : List F := List.replicate publicData.DomainH.Cardinality 0
  let bExpo := publicData.DomainNum.Cardinality
  let one : F := 1
  let uu := publicData.DomainNum.FinerGenerator * publicData.DomainNum.FinerGenerator
  let u0 := publicData.DomainNum.FinerGenerator
  let u1 := u0 * uu
  let u2 := u1 * uu
  let u3 := u2 * uu
  let v0 := (u0 ^ bExpo - one)⁻¹
  let v1 := (u1 ^ bExpo - one)⁻¹
  let v2 := (u2 ^ bExpo - one)⁻¹
  let v3 := (u3 ^ bExpo - one)⁻¹
  let ha := (List.range (4 * publicData.DomainNum.Cardinality)).foldl
    (hornerStep constraintsInd constraintOrdering startsAtOne alpha) h0
  let hb := (List.range publicData.DomainNum.Cardinality).foldl
    (vanishingDivStep v0 v1 v2 v3) ha
  let hc := P.BitReverse (P.FFTInverse publicData.DomainH hb 1)
  let c := publicData.DomainNum.Cardinality
  (copyInto (List.replicate c 0) (hc.take c),
   copyInto (List.replicate c 0) ((hc.drop c).take c),
   copyInto (List.replicate c 0) ((hc.drop (2 * c)).take c))

/-- Proof helper: the Horner loop of `computeH` after `k` steps. -/
def hornerFold {F : Type} [Field F]
    (constraintsInd constraintOrdering startsAtOne : List F) (alpha : F)
    (L : List F) (k : Nat) : List F :=
  (List.range k).foldl
    (hornerStep constraintsInd constraintOrdering startsAtOne alpha) L

/-- Proof helper: the vanishing-division loop of `computeH` after `k`
steps. -/
def vanishingDivFold {F : Type} [Field F] (v0 v1 v2 v3 : F) (L : List F)
    (k : Nat) : List F :=
  (List.range k).foldl (vanishingDivStep v0 v1 v2 v3) L

/-- One recorded Fiat–Shamir transcript operation: an absorption
(`Bind(label, data)`) or a challenge derivation
(`ComputeChallenge(label)`). -/
inductive FSEvent (B : Type) where
  | bind : String → B → FSEvent B
  | challenge : String → FSEvent B
deriving DecidableEq

/-- Model of gnark-crypto's `fiatshamir.Transcript` (external library):
the registered challenge labels, the absorbed `(label, data)` pairs in
order, the labels whose challenge has been computed, and the full trace
of operations (used to state ordering claims). -/
structure Transcript (B : Type) where
  labels : List String
  bound : List (String × B)
  done : List String
  trace : List (FSEvent B)
deriving DecidableEq

/-- `fiatshamir.NewTranscript(hash, labels...)`: fresh transcript with the
given labels pre-registered (the hash lives in `Prims.HashChallenge`). -/
def NewTranscript (B : Type) (labels : List String) : Transcript B :=
  ⟨labels, [], [], []⟩

/-- `Transcript.Bind(label, data)`: absorb under `label`; error when the
label is unregistered or its challenge was already computed. -/
def TBind {B Err : Type} (terr : Err) (t : Transcript B) (label : String)
    (data : B) : Except Err (Transcript B) :=
  if label ∈ t.labels ∧ label ∉ t.done then
    .ok { t with bound := t.bound ++ [(label, data)],
                 trace := t.trace ++ [.bind label data] }
  else .error terr

/-- `Transcript.ComputeChallenge(label)`: hash the data absorbed under
`label`, mark the label finalized; error when the label is unregistered
or already finalized. -/
def TChallenge {B Err : Type} (hash : String → List B → B) (terr : Err)
    (t : Transcript B) (label : String) :
    Except Err (B × Transcript B) :=
  if label ∈ t.labels ∧ label ∉ t.done then
    .ok (hash label ((t.bound.filter (fun p => p.1 == label)).map Prod.snd),
      { t with done := t.done ++ [label],
               trace := t.trace ++ [.challenge label] })
  else .error terr

/-- PLONK proof: claimed evaluations at ζ of L, R, O, Z, H₁, H₂, H₃ (the
L slot holds the partial-L variant), the claimed `Z(ωζ)`, the seven
commitments, the batch opening at ζ and the opening of Z at ωζ. -/
structure ProofRaw (F D BP OP : Type) where
  LROZH : Fin 7 → F
  ZShift : F
  CommitmentsLROZH : Fin 7 → D
  BatchOpenings : BP
  OpeningZShift : OP

/-- The solution `ProveRaw` uses: Go line `solution, _ := spr.Solve(fullWitness)`
— the error component of `Solve` is discarded. -/
def solutionOf {F W E : Type} (spr : SparseR1CS F W E) (fullWitness : W) :
    List F :=
  (spr.Solve fullWitness).1

/-- Lagrange wires `ll, lr, lo, partialL` of the run. -/
def lroOf {F : Type} [Field F] {W E : Type} (spr : SparseR1CS F W E)
    (publicData : PublicRaw F) (fullWitness : W) :
    List F × List F × List F × List F :=
  ComputeLRO spr publicData (solutionOf spr fullWitness)

/-- Canonical `cl`: copy of `ll`, inverse FFT (no coset), bit-reverse. -/
def clOf {F D B BP OP Err W E : Type} [Field F] (P : Prims F D B BP OP Err)
    (spr : SparseR1CS F W E) (publicData : PublicRaw F) (fullWitness : W) :
    List F :=
  P.BitReverse (P.FFTInverse publicData.DomainNum
    (lroOf spr publicData fullWitness).1 0)

/-- Canonical `cr`. -/
def crOf {F D B BP OP Err W E : Type} [Field F] (P : Prims F D B BP OP Err)
    (spr : SparseR1CS F W E) (publicData : PublicRaw F) (fullWitness : W) :
    List F :=
  P.BitReverse (P.FFTInverse publicData.DomainNum
    (lroOf spr publicData fullWitness).2.1 0)

/-- Canonical `co`. -/
def coOf {F D B BP OP Err W E : Type} [Field F] (P : Prims F D B BP OP Err)
    (spr : SparseR1CS F W E) (publicData : PublicRaw F) (fullWitness : W) :
    List F :=
  P.BitReverse (P.FFTInverse publicData.DomainNum
    (lroOf spr publicData fullWitness).2.2.1 0)

/-- Canonical partial-L (the Go code inverse-FFTs `partialL` in place). -/
def partLcOf {F D B BP OP Err W E : Type} [Field F]
    (P : Prims F D B BP OP Err) (spr : SparseR1CS F W E)
    (publicData : PublicRaw F) (fullWitness : W) : List F :=
  P.BitReverse (P.FFTInverse publicData.DomainNum
    (lroOf spr publicData fullWitness).2.2.2 0)

/-- γ: `SetBytes` of the `"gamma"` challenge over the three wire-commitment
serializations. -/
def gammaOf {F D B BP OP Err : Type} [Field F] (P : Prims F D B BP OP Err)
    (dL dR dO : D) : F :=
  P.SetBytes (P.HashChallenge "gamma"
    [P.Marshal dL, P.Marshal dR, P.Marshal dO])

/-- Lagrange Z of the run. -/
def zLagOf {F D B BP OP Err W E : Type} [Field F] (P : Prims F D B BP OP Err)
    (spr : SparseR1CS F W E) (publicData : PublicRaw F) (fullWitness : W)
    (gamma : F) : List F :=
  ComputeZ (lroOf spr publicData fullWitness).1
    (lroOf spr publicData fullWitness).2.1
    (lroOf spr publicData fullWitness).2.2.1 publicData gamma

/-- Canonical Z (the Go code inverse-FFTs `z` in place). -/
def zcOf {F D B BP OP Err W E : Type} [Field F] (P : Prims F D B BP OP Err)
    (spr : SparseR1CS F W E) (publicData : PublicRaw F) (fullWitness : W)
    (gamma : F) : List F :=
  P.BitReverse (P.FFTInverse publicData.DomainNum
    (zLagOf P spr publicData fullWitness gamma) 0)

/-- Canonical `zu = shiftZ z` (inverse-FFTed in place in Go). -/
def zucOf {F D B BP OP Err W E : Type} [Field F] (P : Prims F D B BP OP Err)
    (spr : SparseR1CS F W E) (publicData : PublicRaw F) (fullWitness : W)
    (gamma : F) : List F :=
  P.BitReverse (P.FFTInverse publicData.DomainNum
    (shiftZ (zLagOf P spr publicData fullWitness gamma)) 0)

/-- Coset evaluations of `cl`. -/
def evalLOf {F D B BP OP Err W E : Type} [Field F] (P : Prims F D B BP OP Err)
    (spr : SparseR1CS F W E) (publicData : PublicRaw F) (fullWitness : W) :
    List F :=
  evaluateCosets P (clOf P spr publicData fullWitness) publicData.DomainNum

/-- Coset evaluations of `cr`. -/
def evalROf {F D B BP OP Err W E : Type} [Field F] (P : Prims F D B BP OP Err)
    (spr : SparseR1CS F W E) (publicData : PublicRaw F) (fullWitness : W) :
    List F :=
  evaluateCosets P (crOf P spr publicData fullWitness) publicData.DomainNum

/-- Coset evaluations of `co`. -/
def evalOOf {F D B BP OP Err W E : Type} [Field F] (P : Prims F D B BP OP Err)
    (spr : SparseR1CS F W E) (publicData : PublicRaw F) (fullWitness : W) :
    List F :=
  evaluateCosets P (coOf P spr publicData fullWitness) publicData.DomainNum

/-- Gate-constraint evaluations on the odd cosets. -/
def constraintsIndOf {F D B BP OP Err W E : Type} [Field F]
    (P : Prims F D B BP OP Err) (spr : SparseR1CS F W E)
    (publicData : PublicRaw F) (fullWitness : W) : List F :=
  evalConstraints P publicData (evalLOf P spr publicData fullWitness)
    (evalROf P spr publicData fullWitness)
    (evalOOf P spr publicData fullWitness)

/-- Coset evaluations of canonical Z. -/
def evalZOf {F D B BP OP Err W E : Type} [Field F] (P : Prims F D B BP OP Err)
    (spr : SparseR1CS F W E) (publicData : PublicRaw F) (fullWitness : W)
    (gamma : F) : List F :=
  evaluateCosets P (zcOf P spr publicData fullWitness gamma)
    publicData.DomainNum

/-- Coset evaluations of canonical Zu. -/
def evalZuOf {F D B BP OP Err W E : Type} [Field F] (P : Prims F D B BP OP Err)
    (spr : SparseR1CS F W E) (publicData : PublicRaw F) (fullWitness : W)
    (gamma : F) : List F :=
  evaluateCosets P (zucOf P spr publicData fullWitness gamma)
    publicData.DomainNum

/-- Permutation-constraint evaluations on the odd cosets. -/
def constraintsOrderingOf {F D B BP OP Err W E : Type} [Field F]
    (P : Prims F D B BP OP Err) (spr : SparseR1CS F W E)
    (publicData : PublicRaw F) (fullWitness : W) (gamma : F) : List F :=
  evalConstraintOrdering P publicData
    (evalZOf P spr publicData fullWitness gamma)
    (evalZuOf P spr publicData fullWitness gamma)
    (evalLOf P spr publicData fullWitness)
    (evalROf P spr publicData fullWitness)
    (evalOOf P spr publicData fullWitness) gamma

/-- `L₁·(Z−1)` evaluations on the odd cosets. -/
def startsAtOneOf {F D B BP OP Err W E : Type} [Field F]
    (P : Prims F D B BP OP Err) (spr : SparseR1CS F W E)
    (publicData : PublicRaw F) (fullWitness : W) (gamma : F) : List F :=
  evalStartsAtOne P publicData (evalZOf P spr publicData fullWitness gamma)

/-- α: `SetBytes` of the `"alpha"` challenge over the Z-commitment
serialization. -/
def alphaOf {F D B BP OP Err : Type} [Field F] (P : Prims F D B BP OP Err)
    (dZ : D) : F :=
  P.SetBytes (P.HashChallenge "alpha" [P.Marshal dZ])

/-- First slice of the quotient of the run. -/
def h1Of {F D B BP OP Err W E : Type} [Field F] (P : Prims F D B BP OP Err)
    (spr : SparseR1CS F W E) (publicData : PublicRaw F) (fullWitness : W)
    (gamma alpha : F) : List F :=
  (computeH P publicData (constraintsIndOf P spr publicData fullWitness)
    (constraintsOrderingOf P spr publicData fullWitness gamma)
    (startsAtOneOf P spr publicData fullWitness gamma) alpha).1

/-- Second slice of the quotient of the run. -/
def h2Of {F D B BP OP Err W E : Type} [Field F] (P : Prims F D B BP OP Err)
    (spr : SparseR1CS F W E) (publicData : PublicRaw F) (fullWitness : W)
    (gamma alpha : F) : List F :=
  (computeH P publicData (constraintsIndOf P spr publicData fullWitness)
    (constraintsOrderingOf P spr publicData fullWitness gamma)
    (startsAtOneOf P spr publicData fullWitness gamma) alpha).2.1

/-- Third slice of the quotient of the run. -/
def h3Of {F D B BP OP Err W E : Type} [Field F] (P : Prims F D B BP OP Err)
    (spr : SparseR1CS F W E) (publicData : PublicRaw F) (fullWitness : W)
    (gamma alpha : F) : List F :=
  (computeH P publicData (constraintsIndOf P spr publicData fullWitness)
    (constraintsOrderingOf P spr publicData fullWitness gamma)
    (startsAtOneOf P spr publicData fullWitness gamma) alpha).2.2

/-- ζ: `SetBytes` of the `"zeta"` challenge over the three H-commitment
serializations. -/
def zetaOf {F D B BP OP Err : Type} [Field F] (P : Prims F D B BP OP Err)
    (dH1 dH2 dH3 : D) : F :=
  P.SetBytes (P.HashChallenge "zeta"
    [P.Marshal dH1, P.Marshal dH2, P.Marshal dH3])

/-- `ProveRaw`, with the final transcript also returned so that the
Fiat–Shamir ordering claims can be stated.  Round structure as in the Go
function: create the transcript with labels `"gamma"`, `"alpha"`,
`"zeta"`; solve (discarding the `Solve` error, as the Go code does);
commit `cl, cr, co`; absorb their serializations under `"gamma"` and
derive γ; commit canonical Z; absorb under `"alpha"` and derive α;
commit H₁, H₂, H₃; absorb under `"zeta"` and derive ζ; evaluate; batch
open at ζ and open Z at ωζ.  The intermediate polynomials are the
`…Of` stage definitions above, each a transcription of the corresponding
Go lines. -/
def ProveRawT {F D B BP OP Err W E : Type} [Field F]
    (spr : SparseR1CS F W E) (publicData : PublicRaw F) (fullWitness : W)
    (P : Prims F D B BP OP Err) :
    Except Err (ProofRaw F D BP OP × Transcript B) := do
  let fs0 := NewTranscript B ["gamma", "alpha", "zeta"]
  let dL ← P.Commit (clOf P spr publicData fullWitness)
  let dR ← P.Commit (crOf P spr publicData fullWitness)
  let dO ← P.Commit (coOf P spr publicData fullWitness)
  let fs1 ← TBind P.TranscriptFailure fs0 "gamma" (P.Marshal dL)
  let fs2 ← TBind P.TranscriptFailure fs1 "gamma" (P.Marshal dR)
  let fs3 ← TBind P.TranscriptFailure fs2 "gamma" (P.Marshal dO)
  let bg ← TChallenge P.HashChallenge P.TranscriptFailure fs3 "gamma"
  let gamma := P.SetBytes bg.1
  let dZ ← P.Commit (zcOf P spr publicData fullWitness gamma)
  let fs4 ← TBind P.TranscriptFailure bg.2 "alpha" (P.Marshal dZ)
  let ba ← TChallenge P.HashChallenge P.TranscriptFailure fs4 "alpha"
  let alpha := P.SetBytes ba.1
  let dH1 ← P.Commit (h1Of P spr publicData fullWitness gamma alpha)
  let dH2 ← P.Commit (h2Of P spr publicData fullWitness gamma alpha)
  let dH3 ← P.Commit (h3Of P spr publicData fullWitness gamma alpha)
  let fs5 ← TBind P.TranscriptFailure ba.2 "zeta" (P.Marshal dH1)
  let fs6 ← TBind P.TranscriptFailure fs5 "zeta" (P.Marshal dH2)
  let fs7 ← TBind P.TranscriptFailure fs6 "zeta" (P.Marshal dH3)
  let bz ← TChallenge P.HashChallenge P.TranscriptFailure fs7 "zeta"
  let zeta := P.SetBytes bz.1
  let zzeta := zeta * publicData.DomainNum.Generator
  let bo ← P.BatchOpenSinglePoint zeta [dL, dR, dO, dZ, dH1, dH2, dH3]
    [clOf P spr publicData fullWitness, crOf P spr publicData fullWitness,
     coOf P spr publicData fullWitness,
     zcOf P spr publicData fullWitness gamma,
     h1Of P spr publicData fullWitness gamma alpha,
     h2Of P spr publicData fullWitness gamma alpha,
     h3Of P spr publicData fullWitness gamma alpha]
  let oz ← P.OpenProofAt zzeta (zcOf P spr publicData fullWitness gamma)
  return (⟨![P.EvalPoly (partLcOf P spr publicData fullWitness) zeta,
      P.EvalPoly (crOf P spr publicData fullWitness) zeta,
      P.EvalPoly (coOf P spr publicData fullWitness) zeta,
      P.EvalPoly (zcOf P spr publicData fullWitness gamma) zeta,
      P.EvalPoly (h1Of P spr publicData fullWitness gamma alpha) zeta,
      P.EvalPoly (h2Of P spr publicData fullWitness gamma alpha) zeta,
      P.EvalPoly (h3Of P spr publicData fullWitness gamma alpha) zeta],
    P.EvalPoly (zcOf P spr publicData fullWitness gamma) zzeta,
    ![dL, dR, dO, dZ, dH1, dH2, dH3], bo, oz⟩, bz.2)

/-- `ProveRaw` as in the Go signature: the proof (or the first error). -/
def ProveRaw {F D B BP OP Err W E : Type} [Field F]
    (spr : SparseR1CS F W E) (publicData : PublicRaw F) (fullWitness : W)
    (P : Prims F D B BP OP Err) : Except Err (ProofRaw F D BP OP) :=
  (ProveRawT spr publicData fullWitness P).map Prod.fst

/-- The final transcript of a successful run, as a function of the seven
digests. -/
def finalTranscript {F D B BP OP Err : Type} [Field F]
    (P : Prims F D B BP OP Err) (dL dR dO dZ dH1 dH2 dH3 : D) :
    Transcript B :=
  ⟨["gamma", "alpha", "zeta"],
   [("gamma", P.Marshal dL), ("gamma", P.Marshal dR), ("gamma", P.Marshal dO),
    ("alpha", P.Marshal dZ),
    ("zeta", P.Marshal dH1), ("zeta", P.Marshal dH2), ("zeta", P.Marshal dH3)],
   ["gamma", "alpha", "zeta"],
   [.bind "gamma" (P.Marshal dL), .bind "gamma" (P.Marshal dR),
    .bind "gamma" (P.Marshal dO), .challenge "gamma",
    .bind "alpha" (P.Marshal dZ), .challenge "alpha",
    .bind "zeta" (P.Marshal dH1), .bind "zeta" (P.Marshal dH2),
    .bind "zeta" (P.Marshal dH3), .challenge "zeta"]⟩

/-- The proof value of a successful run, as a function of the inputs and
the seven digests and two opening proofs. -/
def finalProof {F D B BP OP Err W E : Type} [Field F]
    (P : Prims F D B BP OP Err) (spr : SparseR1CS F W E)
    (publicData : PublicRaw F) (fullWitness : W)
    (dL dR dO dZ dH1 dH2 dH3 : D) (bo : BP) (oz : OP) :
    ProofRaw F D BP OP :=
  ⟨![P.EvalPoly (partLcOf P spr publicData fullWitness)
      (zetaOf P dH1 dH2 dH3),
    P.EvalPoly (crOf P spr publicData fullWitness) (zetaOf P dH1 dH2 dH3),
    P.EvalPoly (coOf P spr publicData fullWitness) (zetaOf P dH1 dH2 dH3),
    P.EvalPoly (zcOf P spr publicData fullWitness (gammaOf P dL dR dO))
      (zetaOf P dH1 dH2 dH3),
    P.EvalPoly (h1Of P spr publicData fullWitness (gammaOf P dL dR dO)
      (alphaOf P dZ)) (zetaOf P dH1 dH2 dH3),
    P.EvalPoly (h2Of P spr publicData fullWitness (gammaOf P dL dR dO)
      (alphaOf P dZ)) (zetaOf P dH1 dH2 dH3),
    P.EvalPoly (h3Of P spr publicData fullWitness (gammaOf P dL dR dO)
      (alphaOf P dZ)) (zetaOf P dH1 dH2 dH3)],
   P.EvalPoly (zcOf P spr publicData fullWitness (gammaOf P dL dR dO))
     (zetaOf P dH1 dH2 dH3 * publicData.DomainNum.Generator),
   ![dL, dR, dO, dZ, dH1, dH2, dH3], bo, oz⟩

/-! ### Heap model

The pure embedding above erases Go's slice aliasing, so the frame claim
(no mutation of `PublicRaw`) is re-proved on a second, heap-level
embedding: every `[]fr.Element` slice lives in a heap of slices, `make`
allocates a fresh cell, and every in-place transform (`FFT`,
`FFTInverse`, `BitReverse`, element writes, `copy`) is an explicit store
to a heap cell.  `PublicRaw`'s slice fields become references into that
heap, with no assumption on where they point (they may even alias). -/

/-- A reference to a heap-allocated slice. -/
abbrev Ref := Nat

/-- The heap of `[]fr.Element` slices: cell `r` holds slice `r`. -/
abbrev Heap (F : Type) := List (List F)

/-- `make([]fr.Element, …)`: append a fresh slice, return its
reference. -/
def halloc {F : Type} (h : Heap F) (a : List F) : Ref × Heap F :=
  (h.length, h ++ [a])

/-- Read a whole slice. -/
def hget {F : Type} (h : Heap F) (r : Ref) : List F := h.getD r []

/-- Overwrite a whole slice in place (an in-place FFT, bit-reversal or
`copy` targeting the slice). -/
def hset {F : Type} (h : Heap F) (r : Ref) (a : List F) : Heap F :=
  h.set r a

/-- Write one element of a slice in place. -/
def hsetIdx {F : Type} [Field F] (h : Heap F) (r : Ref) (i : Nat) (v : F) :
    Heap F :=
  hset h r ((hget h r).set i v)

/-- Heap-level `PublicRaw`: slice-valued fields are references into the
shared heap (arbitrary, possibly aliased); scalar fields as before. -/
structure PublicRawH (F : Type) where
  DomainNum : Domain F
  DomainH : Domain F
  Shifter : F × F
  Ql : Ref
  Qr : Ref
  Qm : Ref
  Qo : Ref
  Qk : Ref
  CS1 : Ref
  CS2 : Ref
  CS3 : Ref
  LS1 : Ref
  LS2 : Ref
  LS3 : Ref

/-- Heap-level `evaluateCosets`: four fresh buffers, `copy` the input
polynomial into each, four in-place coset FFTs and bit-reversals, then
the interleaving writes into the caller's `res` buffer. -/
def evaluateCosetsH {F D B BP OP Err : Type} [Field F]
    (P : Prims F D B BP OP Err) (poly res : Ref) (domain : Domain F)
    (h : Heap F) : Heap F :=
  let c := domain.Cardinality
  let (e0, h) := halloc h (List.replicate c 0)
  let (e1, h) := halloc h (List.replicate c 0)
  let (e2, h) := halloc h (List.replicate c 0)
  let (e3, h) := halloc h (List.replicate c 0)
  let h := hset h e0 (copyInto (hget h e0) (hget h poly))
  let h := hset h e1 (copyInto (hget h e1) (hget h poly))
  let h := hset h e2 (copyInto (hget h e2) (hget h poly))
  let h := hset h e3 (copyInto (hget h e3) (hget h poly))
  let h := hset h e0 (P.FFT domain (hget h e0) 1)
  let h := hset h e1 (P.FFT domain (hget h e1) 3)
  let h := hset h e2 (P.FFT domain (hget h e2) 5)
  let h := hset h e3 (P.FFT domain (hget h e3) 7)
  let h := hset h e0 (P.BitReverse (hget h e0))
  let h := hset h e1 (P.BitReverse (hget h e1))
  let h := hset h e2 (P.BitReverse (hget h e2))
  let h := hset h e3 (P.BitReverse (hget h e3))
  (List.range c).foldl
    (fun h i =>
      let h := hsetIdx h res (4 * i) ((hget h e0).getD i 0)
      let h := hsetIdx h res (4 * i + 1) ((hget h e1).getD i 0)
      let h := hsetIdx h res (4 * i + 2) ((hget h e2).getD i 0)
      hsetIdx h res (4 * i + 3) ((hget h e3).getD i 0)) h

/-- Heap-level `ComputeLRO`: four fresh slices and the four write
loops. -/
def ComputeLROH {F W E : Type} [Field F] (spr : SparseR1CS F W E)
    (publicData : PublicRawH F) (solution : List F) (h : Heap F) :
    (Ref × Ref × Ref × Ref) × Heap F :=
  let s := publicData.DomainNum.Cardinality
  let (l, h) := halloc h (List.replicate s 0)
  let (r, h) := halloc h (List.replicate s 0)
  let (o, h) := halloc h (List.replicate s 0)
  let (partL, h) := halloc h (List.replicate s 0)
  let h := (List.range spr.NbPublicVariables).foldl
    (fun h i =>
      let h := hsetIdx h l i (solution.getD i 0)
      let h := hsetIdx h r i (solution.getD 0 0)
      hsetIdx h o i (solution.getD 0 0)) h
  let offset1 := spr.NbPublicVariables
  let h := (List.range spr.Constraints.length).foldl
    (fun h i =>
      let h := hsetIdx h l (offset1 + i)
        (solution.getD (spr.Constraints.getD i cZero).L.VariableID 0)
      let h := hsetIdx h r (offset1 + i)
        (solution.getD (spr.Constraints.getD i cZero).R.VariableID 0)
      let h := hsetIdx h o (offset1 + i)
        (solution.getD (spr.Constraints.getD i cZero).O.VariableID 0)
      hsetIdx h partL (offset1 + i) ((hget h l).getD (offset1 + i) 0)) h
  let offset2 := offset1 + spr.Constraints.length
  let h := (List.range spr.Assertions.length).foldl
    (fun h i =>
      let h := hsetIdx h l (offset2 + i)
        (solution.getD (spr.Assertions.getD i cZero).L.VariableID 0)
      let h := hsetIdx h r (offset2 + i)
        (solution.getD (spr.Assertions.getD i cZero).R.VariableID 0)
      let h := hsetIdx h o (offset2 + i)
        (solution.getD (spr.Assertions.getD i cZero).O.VariableID 0)
      hsetIdx h partL (offset2 + i) ((hget h l).getD (offset2 + i) 0)) h
  let offset3 := offset2 + spr.Assertions.length
  let h := (List.range (s - offset3)).foldl
    (fun h i =>
      let h := hsetIdx h l (offset3 + i) (solution.getD 0 0)
      let h := hsetIdx h r (offset3 + i) (solution.getD 0 0)
      let h := hsetIdx h o (offset3 + i) (solution.getD 0 0)
      hsetIdx h partL (offset3 + i) ((hget h l).getD (offset3 + i) 0)) h
  ((l, r, o, partL), h)

/-- Heap-level `ComputeZ`: fresh accumulator slice, `z[0] = 1`, then the
grand-product loop with its running powers, reading the wire slices and
the Lagrange permutation slices from the heap. -/
def ComputeZH {F : Type} [Field F] (l r o : Ref)
    (publicData : PublicRawH F) (gamma : F) (h : Heap F) : Ref × Heap F :=
  let nbElmts := publicData.DomainNum.Cardinality
  let (z, h) := halloc h (List.replicate nbElmts 0)
  let h := hsetIdx h z 0 1
  let st := (List.range (nbElmts - 1)).foldl
    (fun (st : Heap F × F × F × F) i =>
      let h := st.1
      let u0 := st.2.1
      let u1 := st.2.2.1
      let u2 := st.2.2.2
      let f0 := ((hget h l).getD i 0 + u0 + gamma) *
        ((hget h r).getD i 0 + u1 + gamma) *
        ((hget h o).getD i 0 + u2 + gamma)
      let g0 := ((hget h l).getD i 0 + (hget h publicData.LS1).getD i 0 +
          gamma) *
        ((hget h r).getD i 0 + (hget h publicData.LS2).getD i 0 + gamma) *
        ((hget h o).getD i 0 + (hget h publicData.LS3).getD i 0 + gamma)
      (hsetIdx h z (i + 1) ((hget h z).getD i 0 * f0 / g0),
       u0 * publicData.DomainNum.Generator,
       u1 * publicData.DomainNum.Generator,
       u2 * publicData.DomainNum.Generator))
    (h, 1, publicData.Shifter.1, publicData.Shifter.2)
  (z, st.1)

/-- Heap-level `shiftZ`: fresh slice, `copy` the input into it, then the
in-place cyclic shift. -/
def shiftZH {F : Type} [Field F] (z : Ref) (h : Heap F) : Ref × Heap F :=
  let (res, h) := halloc h (List.replicate (hget h z).length 0)
  let h := hset h res (copyInto (hget h res) (hget h z))
  let n := (hget h res).length
  let buf := (hget h res).getD 0 0
  let h := (List.range (n - 1)).foldl
    (fun h i => hsetIdx h res i ((hget h res).getD (i + 1) 0)) h
  (res, hsetIdx h res (n - 1) buf)

/-- Heap-level `evalConstraints`: the result buffer and five fresh
selector-evaluation buffers, five coset evaluations, then the gate
combination loop. -/
def evalConstraintsH {F D B BP OP Err : Type} [Field F]
    (P : Prims F D B BP OP Err) (publicData : PublicRawH F)
    (evalL evalR evalO : Ref) (h : Heap F) : Ref × Heap F :=
  let c := publicData.DomainNum.Cardinality
  let (res, h) := halloc h (List.replicate (4 * c) 0)
  let (evalQl, h) := halloc h (List.replicate (4 * c) 0)
  let (evalQr, h) := halloc h (List.replicate (4 * c) 0)
  let (evalQm, h) := halloc h (List.replicate (4 * c) 0)
  let (evalQo, h) := halloc h (List.replicate (4 * c) 0)
  let (evalQk, h) := halloc h (List.replicate (4 * c) 0)
  let h := evaluateCosetsH P publicData.Ql evalQl publicData.DomainNum h
  let h := evaluateCosetsH P publicData.Qr evalQr publicData.DomainNum h
  let h := evaluateCosetsH P publicData.Qm evalQm publicData.DomainNum h
  let h := evaluateCosetsH P publicData.Qo evalQo publicData.DomainNum h
  let h := evaluateCosetsH P publicData.Qk evalQk publicData.DomainNum h
  let h := (List.range (4 * c)).foldl
    (fun h i =>
      hsetIdx h res i ((hget h evalQl).getD i 0 * (hget h evalL).getD i 0 +
        (hget h evalQr).getD i 0 * (hget h evalR).getD i 0 +
        (hget h evalQm).getD i 0 * (hget h evalL).getD i 0 *
          (hget h evalR).getD i 0 +
        (hget h evalQo).getD i 0 * (hget h evalO).getD i 0 +
        (hget h evalQk).getD i 0)) h
  (res, h)

/-- First write loop of `evalIDCosets`: the running powers of the domain
generator written into the `id` buffer in blocks of four. -/
def idCosetGeneratorLoop {F : Type} [Field F] (publicData : PublicRawH F)
    (idr : Ref) (h : Heap F) : Heap F :=
  (List.range (publicData.DomainNum.Cardinality - 1)).foldl
    (fun h k =>
      let i := k + 1
      let h := hsetIdx h idr (4 * i)
        ((hget h idr).getD (4 * (i - 1)) 0 * publicData.DomainNum.Generator)
      let h := hsetIdx h idr (4 * i + 1) ((hget h idr).getD (4 * i) 0)
      let h := hsetIdx h idr (4 * i + 2) ((hget h idr).getD (4 * i) 0)
      hsetIdx h idr (4 * i + 3) ((hget h idr).getD (4 * i) 0)) h

/-- Second write loop of `evalIDCosets`: scale the `id` buffer by the
coset shifts in place and fill `uid`, `uuid` with the shifted copies. -/
def idCosetScaleLoop {F : Type} [Field F] (publicData : PublicRawH F)
    (idr uid uuid : Ref) (h : Heap F) : Heap F :=
  let uu := publicData.DomainNum.FinerGenerator *
    publicData.DomainNum.FinerGenerator
  let u0 := publicData.DomainNum.FinerGenerator
  let u1 := u0 * uu
  let u2 := u1 * uu
  let u3 := u2 * uu
  (List.range publicData.DomainNum.Cardinality).foldl
    (fun h i =>
      let h := hsetIdx h idr (4 * i) ((hget h idr).getD (4 * i) 0 * u0)
      let h := hsetIdx h idr (4 * i + 1) ((hget h idr).getD (4 * i + 1) 0 * u1)
      let h := hsetIdx h idr (4 * i + 2) ((hget h idr).getD (4 * i + 2) 0 * u2)
      let h := hsetIdx h idr (4 * i + 3) ((hget h idr).getD (4 * i + 3) 0 * u3)
      let h := hsetIdx h uid (4 * i)
        ((hget h idr).getD (4 * i) 0 * publicData.Shifter.1)
      let h := hsetIdx h uid (4 * i + 1)
        ((hget h idr).getD (4 * i + 1) 0 * publicData.Shifter.1)
      let h := hsetIdx h uid (4 * i + 2)
        ((hget h idr).getD (4 * i + 2) 0 * publicData.Shifter.1)
      let h := hsetIdx h uid (4 * i + 3)
        ((hget h idr).getD (4 * i + 3) 0 * publicData.Shifter.1)
      let h := hsetIdx h uuid (4 * i)
        ((hget h idr).getD (4 * i) 0 * publicData.Shifter.2)
      let h := hsetIdx h uuid (4 * i + 1)
        ((hget h idr).getD (4 * i + 1) 0 * publicData.Shifter.2)
      let h := hsetIdx h uuid (4 * i + 2)
        ((hget h idr).getD (4 * i + 2) 0 * publicData.Shifter.2)
      hsetIdx h uuid (4 * i + 3)
        ((hget h idr).getD (4 * i + 3) 0 * publicData.Shifter.2)) h

/-- Heap-level `evalIDCosets`: the `id` buffer with its two write loops,
and the `uid`, `uuid` buffers. -/
def evalIDCosetsH {F : Type} [Field F] (publicData : PublicRawH F)
    (h : Heap F) : (Ref × Ref × Ref) × Heap F :=
  let c := publicData.DomainNum.Cardinality
  let (idr, h) := halloc h (List.replicate (4 * c) 0)
  let h := hsetIdx h idr 0 1
  let h := hsetIdx h idr 1 1
  let h := hsetIdx h idr 2 1
  let h := hsetIdx h idr 3 1
  let h := idCosetGeneratorLoop publicData idr h
  let (uid, h) := halloc h (List.replicate (4 * c) 0)
  let (uuid, h) := halloc h (List.replicate (4 * c) 0)
  let h := idCosetScaleLoop publicData idr uid uuid h
  ((idr, uid, uuid), h)

/-- Heap-level `evalConstraintOrdering`: three fresh permutation
evaluation buffers, the identity cosets, the result buffer and the
combination loop. -/
def evalConstraintOrderingH {F D B BP OP Err : Type} [Field F]
    (P : Prims F D B BP OP Err) (publicData : PublicRawH F)
    (evalZ evalZu evalL evalR evalO : Ref) (gamma : F) (h : Heap F) :
    Ref × Heap F :=
  let c := publicData.DomainNum.Cardinality
  let (evalS1, h) := halloc h (List.replicate (4 * c) 0)
  let (evalS2, h) := halloc h (List.replicate (4 * c) 0)
  let (evalS3, h) := halloc h (List.replicate (4 * c) 0)
  let h := evaluateCosetsH P publicData.CS1 evalS1 publicData.DomainNum h
  let h := evaluateCosetsH P publicData.CS2 evalS2 publicData.DomainNum h
  let h := evaluateCosetsH P publicData.CS3 evalS3 publicData.DomainNum h
  let idsh := evalIDCosetsH publicData h
  let ids := idsh.1
  let h := idsh.2
  let (res, h) := halloc h (List.replicate (4 * c) 0)
  let h := (List.range (4 * c)).foldl
    (fun h i =>
      let f := ((hget h evalL).getD i 0 + (hget h ids.1).getD i 0 + gamma) *
        ((hget h evalR).getD i 0 + (hget h ids.2.1).getD i 0 + gamma) *
        ((hget h evalO).getD i 0 + (hget h ids.2.2).getD i 0 + gamma) *
        (hget h evalZ).getD i 0
      let g := ((hget h evalL).getD i 0 + (hget h evalS1).getD i 0 + gamma) *
        ((hget h evalR).getD i 0 + (hget h evalS2).getD i 0 + gamma) *
        ((hget h evalO).getD i 0 + (hget h evalS3).getD i 0 + gamma) *
        (hget h evalZu).getD i 0
      hsetIdx h res i (g - f)) h
  (res, h)

/-- Heap-level `evalStartsAtOne`: the Lagrange `L₁` slice, its in-place
conversion to canonical, a fresh coset-evaluation buffer, and the
pointwise multiplication by `Z − 1`. -/
def evalStartsAtOneH {F D B BP OP Err : Type} [Field F]
    (P : Prims F D B BP OP Err) (publicData : PublicRawH F) (evalZ : Ref)
    (h : Heap F) : Ref × Heap F :=
  let c := publicData.DomainNum.Cardinality
  let (lOne, h) := halloc h (List.replicate c 0)
  let h := hsetIdx h lOne 0 1
  let h := hset h lOne (P.FFTInverse publicData.DomainNum (hget h lOne) 0)
  let h := hset h lOne (P.BitReverse (hget h lOne))
  let (res, h) := halloc h (List.replicate (4 * c) 0)
  let h := evaluateCosetsH P lOne res publicData.DomainNum h
  let h := (List.range (4 * c)).foldl
    (fun h i =>
      hsetIdx h res i (((hget h evalZ).getD i 0 - 1) *
        (hget h res).getD i 0)) h
  (res, h)

/-- The Horner combination loop of `computeH`: the three numerator
terms are folded with `alpha` into the quotient buffer `hq`. -/
def computeHCombineLoop {F : Type} [Field F] (publicData : PublicRawH F)
    (constraintsInd constraintOrdering startsAtOne hq : Ref) (alpha : F)
    (h : Heap F) : Heap F :=
  (List.range (4 * publicData.DomainNum.Cardinality)).foldl
    (fun h i =>
      hsetIdx h hq i (((hget h startsAtOne).getD i 0 * alpha +
        (hget h constraintOrdering).getD i 0) * alpha +
        (hget h constraintsInd).getD i 0)) h

/-- The vanishing-polynomial division loop of `computeH`: each block of
four quotient entries is scaled by the inverses
`((νᵘ)^m − 1)⁻¹` of the vanishing values on the four cosets. -/
def computeHVanishingLoop {F : Type} [Field F] (publicData : PublicRawH F)
    (hq : Ref) (h : Heap F) : Heap F :=
  let bExpo := publicData.DomainNum.Cardinality
  let one : F := 1
  let uu := publicData.DomainNum.FinerGenerator *
    publicData.DomainNum.FinerGenerator
  let u0 := publicData.DomainNum.FinerGenerator
  let u1 := u0 * uu
  let u2 := u1 * uu
  let u3 := u2 * uu
  let v0 := (u0 ^ bExpo - one)⁻¹
  let v1 := (u1 ^ bExpo - one)⁻¹
  let v2 := (u2 ^ bExpo - one)⁻¹
  let v3 := (u3 ^ bExpo - one)⁻¹
  (List.range publicData.DomainNum.Cardinality).foldl
    (fun h i =>
      let h := hsetIdx h hq (4 * i) ((hget h hq).getD (4 * i) 0 * v0)
      let h := hsetIdx h hq (4 * i + 1) ((hget h hq).getD (4 * i + 1) 0 * v1)
      let h := hsetIdx h hq (4 * i + 2) ((hget h hq).getD (4 * i + 2) 0 * v2)
      hsetIdx h hq (4 * i + 3) ((hget h hq).getD (4 * i + 3) 0 * v3)) h

/-- Heap-level `computeH`: the length-4m quotient buffer with the Horner
and vanishing-division loops, its in-place inverse FFT and bit-reversal,
and the three fresh length-m slices receiving the copies. -/
def computeHH {F D B BP OP Err : Type} [Field F]
    (P : Prims F D B BP OP Err) (publicData : PublicRawH F)
    (constraintsInd constraintOrdering startsAtOne : Ref) (alpha : F)
    (h : Heap F) : (Ref × Ref × Ref) × Heap F :=
  let (hq, h) := halloc h (List.replicate publicData.DomainH.Cardinality 0)
  let h := computeHCombineLoop publicData constraintsInd constraintOrdering
    startsAtOne hq alpha h
  let h := computeHVanishingLoop publicData hq h
  let h := hset h hq (P.FFTInverse publicData.DomainH (hget h hq) 1)
  let h := hset h hq (P.BitReverse (hget h hq))
  let c := publicData.DomainNum.Cardinality
  let (h1, h) := halloc h (List.replicate c 0)
  let (h2, h) := halloc h (List.replicate c 0)
  let (h3, h) := halloc h (List.replicate c 0)
  let h := hset h h1 (copyInto (hget h h1) ((hget h hq).take c))
  let h := hset h h2 (copyInto (hget h h2) (((hget h hq).drop c).take c))
  let h := hset h h3 (copyInto (hget h h3) (((hget h hq).drop (2 * c)).take c))
  ((h1, h2, h3), h)

/-- Round-1 heap work of `ProveRaw`: solve (error discarded), extract
the Lagrange wires, allocate and `copy` the canonical wire slices, then
the in-place inverse FFTs and bit-reversals of `cl`, `cr`, `co` and
`partialL`.  Returns `(ll, lr, lo, partL, cl, cr, co)`. -/
def proveRawHRound1 {F D B BP OP Err W E : Type} [Field F]
    (P : Prims F D B BP OP Err) (spr : SparseR1CS F W E)
    (publicData : PublicRawH F) (fullWitness : W) (h : Heap F) :
    (Ref × Ref × Ref × Ref × Ref × Ref × Ref) × Heap F :=
  let solution := (spr.Solve fullWitness).1
  let lroh := ComputeLROH spr publicData solution h
  let lro := lroh.1
  let h := lroh.2
  let ll := lro.1
  let lr := lro.2.1
  let lo := lro.2.2.1
  let partL := lro.2.2.2
  let (cl, h) := halloc h (List.replicate (hget h ll).length 0)
  let (cr, h) := halloc h (List.replicate (hget h lr).length 0)
  let (co, h) := halloc h (List.replicate (hget h lo).length 0)
  let h := hset h cl (copyInto (hget h cl) (hget h ll))
  let h := hset h cr (copyInto (hget h cr) (hget h lr))
  let h := hset h co (copyInto (hget h co) (hget h lo))
  let h := hset h cl (P.FFTInverse publicData.DomainNum (hget h cl) 0)
  let h := hset h cr (P.FFTInverse publicData.DomainNum (hget h cr) 0)
  let h := hset h co (P.FFTInverse publicData.DomainNum (hget h co) 0)
  let h := hset h partL (P.FFTInverse publicData.DomainNum (hget h partL) 0)
  let h := hset h cl (P.BitReverse (hget h cl))
  let h := hset h cr (P.BitReverse (hget h cr))
  let h := hset h co (P.BitReverse (hget h co))
  let h := hset h partL (P.BitReverse (hget h partL))
  ((ll, lr, lo, partL, cl, cr, co), h)

/-- Round-2 heap work of `ProveRaw`: compute Z and its shift, the coset
evaluations of the canonical wires, the gate term, the in-place
conversion of z and zu to canonical, their coset evaluations, the
permutation term and the `L₁(Z−1)` term.  Returns
`(z, constraintsInd, constraintsOrdering, startsAtOne)`. -/
def proveRawHRound2 {F D B BP OP Err : Type} [Field F]
    (P : Prims F D B BP OP Err) (publicData : PublicRawH F)
    (ll lr lo cl cr co : Ref) (gamma : F) (h : Heap F) :
    (Ref × Ref × Ref × Ref) × Heap F :=
  let zh := ComputeZH ll lr lo publicData gamma h
  let z := zh.1
  let h := zh.2
  let zuh := shiftZH z h
  let zu := zuh.1
  let h := zuh.2
  let c := publicData.DomainNum.Cardinality
  let (evalL, h) := halloc h (List.replicate (4 * c) 0)
  let (evalR, h) := halloc h (List.replicate (4 * c) 0)
  let (evalO, h) := halloc h (List.replicate (4 * c) 0)
  let h := evaluateCosetsH P cl evalL publicData.DomainNum h
  let h := evaluateCosetsH P cr evalR publicData.DomainNum h
  let h := evaluateCosetsH P co evalO publicData.DomainNum h
  let cih := evalConstraintsH P publicData evalL evalR evalO h
  let constraintsInd := cih.1
  let h := cih.2
  let h := hset h z (P.FFTInverse publicData.DomainNum (hget h z) 0)
  let h := hset h zu (P.FFTInverse publicData.DomainNum (hget h zu) 0)
  let h := hset h z (P.BitReverse (hget h z))
  let h := hset h zu (P.BitReverse (hget h zu))
  let (evalZ, h) := halloc h (List.replicate (4 * c) 0)
  let (evalZu, h) := halloc h (List.replicate (4 * c) 0)
  let h := evaluateCosetsH P z evalZ publicData.DomainNum h
  let h := evaluateCosetsH P zu evalZu publicData.DomainNum h
  let coh := evalConstraintOrderingH P publicData evalZ
    evalZu evalL evalR evalO gamma h
  let constraintsOrdering := coh.1
  let h := coh.2
  let soh := evalStartsAtOneH P publicData evalZ h
  let startsAtOne := soh.1
  let h := soh.2
  ((z, constraintsInd, constraintsOrdering, startsAtOne), h)

/-- Heap-level `ProveRaw`: the same control flow as `ProveRawT`, but with
every slice in the heap and every in-place transform an explicit store.
On any error the current heap is returned, so the frame theorem covers
failing runs as well. -/
def ProveRawH {F D B BP OP Err W E : Type} [Field F]
    (spr : SparseR1CS F W E) (publicData : PublicRawH F) (fullWitness : W)
    (P : Prims F D B BP OP Err) (h : Heap F) :
    Except Err (ProofRaw F D BP OP) × Heap F :=
  let fs0 := NewTranscript B ["gamma", "alpha", "zeta"]
  let w1h := proveRawHRound1 P spr publicData fullWitness h
  let w1 := w1h.1
  let h := w1h.2
  let partL := w1.2.2.2.1
  let cl := w1.2.2.2.2.1
  let cr := w1.2.2.2.2.2.1
  let co := w1.2.2.2.2.2.2
  match P.Commit (hget h cl) with
  | .error e => (.error e, h)
  | .ok dL =>
  match P.Commit (hget h cr) with
  | .error e => (.error e, h)
  | .ok dR =>
  match P.Commit (hget h co) with
  | .error e => (.error e, h)
  | .ok dO =>
  match TBind P.TranscriptFailure fs0 "gamma" (P.Marshal dL) with
  | .error e => (.error e, h)
  | .ok fs1 =>
  match TBind P.TranscriptFailure fs1 "gamma" (P.Marshal dR) with
  | .error e => (.error e, h)
  | .ok fs2 =>
  match TBind P.TranscriptFailure fs2 "gamma" (P.Marshal dO) with
  | .error e => (.error e, h)
  | .ok fs3 =>
  match TChallenge P.HashChallenge P.TranscriptFailure fs3 "gamma" with
  | .error e => (.error e, h)
  | .ok bg =>
  let gamma := P.SetBytes bg.1
  let w2h := proveRawHRound2 P publicData w1.1 w1.2.1 w1.2.2.1 cl cr co
    gamma h
  let w2 := w2h.1
  let h := w2h.2
  let z := w2.1
  match P.Commit (hget h z) with
  | .error e => (.error e, h)
  | .ok dZ =>
  match TBind P.TranscriptFailure bg.2 "alpha" (P.Marshal dZ) with
  | .error e => (.error e, h)
  | .ok fs4 =>
  match TChallenge P.HashChallenge P.TranscriptFailure fs4 "alpha" with
  | .error e => (.error e, h)
  | .ok ba =>
  let alpha := P.SetBytes ba.1
  let hsh := computeHH P publicData w2.2.1 w2.2.2.1 w2.2.2.2 alpha h
  let hs := hsh.1
  let h := hsh.2
  let h1 := hs.1
  let h2 := hs.2.1
  let h3 := hs.2.2
  match P.Commit (hget h h1) with
  | .error e => (.error e, h)
  | .ok dH1 =>
  match P.Commit (hget h h2) with
  | .error e => (.error e, h)
  | .ok dH2 =>
  match P.Commit (hget h h3) with
  | .error e => (.error e, h)
  | .ok dH3 =>
  match TBind P.TranscriptFailure ba.2 "zeta" (P.Marshal dH1) with
  | .error e => (.error e, h)
  | .ok fs5 =>
  match TBind P.TranscriptFailure fs5 "zeta" (P.Marshal dH2) with
  | .error e => (.error e, h)
  | .ok fs6 =>
  match TBind P.TranscriptFailure fs6 "zeta" (P.Marshal dH3) with
  | .error e => (.error e, h)
  | .ok fs7 =>
  match TChallenge P.HashChallenge P.TranscriptFailure fs7 "zeta" with
  | .error e => (.error e, h)
  | .ok bz =>
  let zeta := P.SetBytes bz.1
  let zzeta := zeta * publicData.DomainNum.Generator
  match P.BatchOpenSinglePoint zeta [dL, dR, dO, dZ, dH1, dH2, dH3]
    [hget h cl, hget h cr, hget h co, hget h z, hget h h1, hget h h2,
     hget h h3] with
  | .error e => (.error e, h)
  | .ok bo =>
  match P.OpenProofAt zzeta (hget h z) with
  | .error e => (.error e, h)
  | .ok oz =>
  (.ok ⟨![P.EvalPoly (hget h partL) zeta, P.EvalPoly (hget h cr) zeta,
      P.EvalPoly (hget h co) zeta, P.EvalPoly (hget h z) zeta,
      P.EvalPoly (hget h h1) zeta, P.EvalPoly (hget h h2) zeta,
      P.EvalPoly (hget h h3) zeta],
    P.EvalPoly (hget h z) zzeta,
    ![dL, dR, dO, dZ, dH1, dH2, dH3], bo, oz⟩, h)

instance : Fact (Nat.Prime 5) := ⟨by norm_num⟩

/-- Concrete public data over `ZMod 5` with a zero permutation-denominator
factor, used to exercise `ComputeZ` on a corrupt witness. -/
def c2PD : PublicRaw (ZMod 5) where
  DomainNum := ⟨2, 1, 1⟩
  DomainH := ⟨8, 1, 1⟩
  Shifter := (1, 1)
  Ql := [0, 0]
  Qr := [0, 0]
  Qm := [0, 0]
  Qo := [0, 0]
  Qk := [0, 0]
  CS1 := [0, 0]
  CS2 := [0, 0]
  CS3 := [0, 0]
  LS1 := [0, 0]
  LS2 := [0, 0]
  LS3 := [0, 0]

/-- Concrete SR1CS over `ZMod 5`: one public input, one constraint, one
assertion. -/
def c7SPR : SparseR1CS (ZMod 5) Unit Unit where
  NbPublicVariables := 1
  Constraints := [⟨⟨1⟩, ⟨2⟩, ⟨0⟩⟩]
  Assertions := [⟨⟨0⟩, ⟨0⟩, ⟨1⟩⟩]
  Solve := fun _ => ([2, 3, 4], none)

/-- Concrete public data of cardinality 4 over `ZMod 5`. -/
def c7PD : PublicRaw (ZMod 5) where
  DomainNum := ⟨4, 2, 3⟩
  DomainH := ⟨16, 2, 3⟩
  Shifter := (2, 3)
  Ql := [0, 0, 0, 0]
  Qr := [0, 0, 0, 0]
  Qm := [0, 0, 0, 0]
  Qo := [0, 0, 0, 0]
  Qk := [0, 0, 0, 0]
  CS1 := [0, 0, 0, 0]
  CS2 := [0, 0, 0, 0]
  CS3 := [0, 0, 0, 0]
  LS1 := [0, 0, 0, 0]
  LS2 := [0, 0, 0, 0]
  LS3 := [0, 0, 0, 0]

/-- Concrete solution vector over `ZMod 5`. -/
def c7Sol : List (ZMod 5) := [2, 3, 4]

/-- Concrete SR1CS whose `Solve` reports an error (unsatisfied
constraint) while still producing a partial solution vector. -/
def c1SPR : SparseR1CS (ZMod 5) Unit Unit where
  NbPublicVariables := 1
  Constraints := [⟨⟨1⟩, ⟨2⟩, ⟨0⟩⟩]
  Assertions := []
  Solve := fun _ => ([2, 3, 4], some ())

/-- Concrete collaborator primitives over `ZMod 5`: identity FFTs and
bit-reversal, a constant commitment scheme and hash.  Used to exercise the
pipeline theorems on closed inputs. -/
def cPrims : Prims (ZMod 5) Nat Nat Nat Nat Unit where
  FFT := fun _ l _ => l
  FFTInverse := fun _ l _ => l
  BitReverse := fun l => l
  Commit := fun _ => .ok 0
  Marshal := fun _ => 0
  HashChallenge := fun _ _ => 0
  SetBytes := fun _ => 0
  EvalPoly := fun p _ => p.getD 0 0
  BatchOpenSinglePoint := fun _ _ _ => .ok 0
  OpenProofAt := fun _ _ => .ok 0
  TranscriptFailure := ()

end Plonk

namespace SwEmulated

/-- The callback that `decomposeScalarG1`
(`std/algebra/emulated/sw_emulated/hints.go`) passes to
`emulated.UnwrapHint`, acting on the unwrapped inputs and outputs.
`big.Int` values are `ℤ`.  The external gnark-crypto pair
`ecc.PrecomputeLattice(inputs[2], inputs[1], ·)` / `ecc.SplitScalar(inputs[0], ·)`
is abstracted as a parameter `splitScalar` applied to
`(inputs[0], inputs[2], inputs[1])` in that call order. -/
def decomposeScalarG1Inner (splitScalar : ℤ → ℤ → ℤ → ℤ × ℤ)
    (inputs outputs : List ℤ) : Except String (List ℤ) :=
  if inputs.length ≠ 3 then .error "expecting three inputs"
  else if outputs.length ≠ 6 then .error "expecting six outputs"
  else
    let sp := splitScalar (inputs.getD 0 0) (inputs.getD 2 0)
      (inputs.getD 1 0)
    let o1 := outputs.set 0 sp.1
    let o2 := o1.set 1 sp.2
    let o3 := o2.set 4 (o2.getD 0 0)
    let o4 := o3.set 5 (o3.getD 1 0)
    let o5 := o4.set 2 1
    let o6 := if (o5.getD 0 0).sign = -1 then
      (o5.set 0 (-(o5.getD 0 0))).set 2 0 else o5
    let o7 := o6.set 3 1
    let o8 := if (o7.getD 1 0).sign = -1 then
      (o7.set 1 (-(o7.getD 1 0))).set 3 0 else o7
    .ok o8

/-- A concrete stand-in for the external scalar-splitting routine, used by
the C10 witness. -/
def cSplit : ℤ → ℤ → ℤ → ℤ × ℤ := fun a _ _ => (a - 7, 3 - a)

end SwEmulated

namespace Plonk

/-! ## Theorems -/

theorem except_bind_ok {ε α β : Type} (x : Except ε α) (f : α → Except ε β)
    (b : β) : (x >>= f) = .ok b ↔ ∃ a, x = .ok a ∧ f a = .ok b := by
  cases x with
  | error e => simp [Bind.bind, Except.bind]
  | ok a => simp [Bind.bind, Except.bind]

theorem except_ok_bind {ε α β : Type} (a : α) (f : α → Except ε β) :
    ((Except.ok a : Except ε α) >>= f) = f a := rfl

theorem tbind_gamma1 {B Err : Type} (terr : Err) (mL : B) :
    TBind terr (NewTranscript B ["gamma", "alpha", "zeta"]) "gamma" mL =
      .ok ⟨["gamma", "alpha", "zeta"], [("gamma", mL)], [],
        [.bind "gamma" mL]⟩ := rfl

theorem tbind_gamma2 {B Err : Type} (terr : Err) (mL mR : B) :
    TBind terr (⟨["gamma", "alpha", "zeta"], [("gamma", mL)], [],
        [.bind "gamma" mL]⟩ : Transcript B) "gamma" mR =
      .ok ⟨["gamma", "alpha", "zeta"], [("gamma", mL), ("gamma", mR)], [],
        [.bind "gamma" mL, .bind "gamma" mR]⟩ := rfl

theorem tbind_gamma3 {B Err : Type} (terr : Err) (mL mR mO : B) :
    TBind terr (⟨["gamma", "alpha", "zeta"],
        [("gamma", mL), ("gamma", mR)], [],
        [.bind "gamma" mL, .bind "gamma" mR]⟩ : Transcript B) "gamma" mO =
      .ok ⟨["gamma", "alpha", "zeta"],
        [("gamma", mL), ("gamma", mR), ("gamma", mO)], [],
        [.bind "gamma" mL, .bind "gamma" mR, .bind "gamma" mO]⟩ := rfl

theorem tchallenge_gamma {B Err : Type} (hash : String → List B → B)
    (terr : Err) (mL mR mO : B) :
    TChallenge hash terr (⟨["gamma", "alpha", "zeta"],
        [("gamma", mL), ("gamma", mR), ("gamma", mO)], [],
        [.bind "gamma" mL, .bind "gamma" mR, .bind "gamma" mO]⟩ :
          Transcript B) "gamma" =
      .ok (hash "gamma" [mL, mR, mO],
        ⟨["gamma", "alpha", "zeta"],
         [("gamma", mL), ("gamma", mR), ("gamma", mO)], ["gamma"],
         [.bind "gamma" mL, .bind "gamma" mR, .bind "gamma" mO,
          .challenge "gamma"]⟩) := rfl

theorem tbind_alpha {B Err : Type} (terr : Err) (mL mR mO mZ : B) :
    TBind terr (⟨["gamma", "alpha", "zeta"],
        [("gamma", mL), ("gamma", mR), ("gamma", mO)], ["gamma"],
        [.bind "gamma" mL, .bind "gamma" mR, .bind "gamma" mO,
         .challenge "gamma"]⟩ : Transcript B) "alpha" mZ =
      .ok ⟨["gamma", "alpha", "zeta"],
        [("gamma", mL), ("gamma", mR), ("gamma", mO), ("alpha", mZ)],
        ["gamma"],
        [.bind "gamma" mL, .bind "gamma" mR, .bind "gamma" mO,
         .challenge "gamma", .bind "alpha" mZ]⟩ := rfl

theorem tchallenge_alpha {B Err : Type} (hash : String → List B → B)
    (terr : Err) (mL mR mO mZ : B) :
    TChallenge hash terr (⟨["gamma", "alpha", "zeta"],
        [("gamma", mL), ("gamma", mR), ("gamma", mO), ("alpha", mZ)],
        ["gamma"],
        [.bind "gamma" mL, .bind "gamma" mR, .bind "gamma" mO,
         .challenge "gamma", .bind "alpha" mZ]⟩ : Transcript B) "alpha" =
      .ok (hash "alpha" [mZ],
        ⟨["gamma", "alpha", "zeta"],
         [("gamma", mL), ("gamma", mR), ("gamma", mO), ("alpha", mZ)],
         ["gamma", "alpha"],
         [.bind "gamma" mL, .bind "gamma" mR, .bind "gamma" mO,
          .challenge "gamma", .bind "alpha" mZ, .challenge "alpha"]⟩) := rfl

theorem tbind_zeta1 {B Err : Type} (terr : Err) (mL mR mO mZ m1 : B) :
    TBind terr (⟨["gamma", "alpha", "zeta"],
        [("gamma", mL), ("gamma", mR), ("gamma", mO), ("alpha", mZ)],
        ["gamma", "alpha"],
        [.bind "gamma" mL, .bind "gamma" mR, .bind "gamma" mO,
         .challenge "gamma", .bind "alpha" mZ, .challenge "alpha"]⟩ :
          Transcript B) "zeta" m1 =
      .ok ⟨["gamma", "alpha", "zeta"],
        [("gamma", mL), ("gamma", mR), ("gamma", mO), ("alpha", mZ),
         ("zeta", m1)],
        ["gamma", "alpha"],
        [.bind "gamma" mL, .bind "gamma" mR, .bind "gamma" mO,
         .challenge "gamma", .bind "alpha" mZ, .challenge "alpha",
         .bind "zeta" m1]⟩ := rfl

theorem tbind_zeta2 {B Err : Type} (terr : Err) (mL mR mO mZ m1 m2 : B) :
    TBind terr (⟨["gamma", "alpha", "zeta"],
        [("gamma", mL), ("gamma", mR), ("gamma", mO), ("alpha", mZ),
         ("zeta", m1)],
        ["gamma", "alpha"],
        [.bind "gamma" mL, .bind "gamma" mR, .bind "gamma" mO,
         .challenge "gamma", .bind "alpha" mZ, .challenge "alpha",
         .bind "zeta" m1]⟩ : Transcript B) "zeta" m2 =
      .ok ⟨["gamma", "alpha", "zeta"],
        [("gamma", mL), ("gamma", mR), ("gamma", mO), ("alpha", mZ),
         ("zeta", m1), ("zeta", m2)],
        ["gamma", "alpha"],
        [.bind "gamma" mL, .bind "gamma" mR, .bind "gamma" mO,
         .challenge "gamma", .bind "alpha" mZ, .challenge "alpha",
         .bind "zeta" m1, .bind "zeta" m2]⟩ := rfl

theorem tbind_zeta3 {B Err : Type} (terr : Err) (mL mR mO mZ m1 m2 m3 : B) :
    TBind terr (⟨["gamma", "alpha", "zeta"],
        [("gamma", mL), ("gamma", mR), ("gamma", mO), ("alpha", mZ),
         ("zeta", m1), ("zeta", m2)],
        ["gamma", "alpha"],
        [.bind "gamma" mL, .bind "gamma" mR, .bind "gamma" mO,
         .challenge "gamma", .bind "alpha" mZ, .challenge "alpha",
         .bind "zeta" m1, .bind "zeta" m2]⟩ : Transcript B) "zeta" m3 =
      .ok ⟨["gamma", "alpha", "zeta"],
        [("gamma", mL), ("gamma", mR), ("gamma", mO), ("alpha", mZ),
         ("zeta", m1), ("zeta", m2), ("zeta", m3)],
        ["gamma", "alpha"],
        [.bind "gamma" mL, .bind "gamma" mR, .bind "gamma" mO,
         .challenge "gamma", .bind "alpha" mZ, .challenge "alpha",
         .bind "zeta" m1, .bind "zeta" m2, .bind "zeta" m3]⟩ := rfl

theorem tchallenge_zeta {B Err : Type} (hash : String → List B → B)
    (terr : Err) (mL mR mO mZ m1 m2 m3 : B) :
    TChallenge hash terr (⟨["gamma", "alpha", "zeta"],
        [("gamma", mL), ("gamma", mR), ("gamma", mO), ("alpha", mZ),
         ("zeta", m1), ("zeta", m2), ("zeta", m3)],
        ["gamma", "alpha"],
        [.bind "gamma" mL, .bind "gamma" mR, .bind "gamma" mO,
         .challenge "gamma", .bind "alpha" mZ, .challenge "alpha",
         .bind "zeta" m1, .bind "zeta" m2, .bind "zeta" m3]⟩ :
          Transcript B) "zeta" =
      .ok (hash "zeta" [m1, m2, m3],
        ⟨["gamma", "alpha", "zeta"],
         [("gamma", mL), ("gamma", mR), ("gamma", mO), ("alpha", mZ),
          ("zeta", m1), ("zeta", m2), ("zeta", m3)],
         ["gamma", "alpha", "zeta"],
         [.bind "gamma" mL, .bind "gamma" mR, .bind "gamma" mO,
          .challenge "gamma", .bind "alpha" mZ, .challenge "alpha",
          .bind "zeta" m1, .bind "zeta" m2, .bind "zeta" m3,
          .challenge "zeta"]⟩) := rfl

theorem ProveRawT_ok_iff {F D B BP OP Err W E : Type} [Field F]
    (spr : SparseR1CS F W E) (publicData : PublicRaw F) (fullWitness : W)
    (P : Prims F D B BP OP Err) (pr : ProofRaw F D BP OP)
    (fs : Transcript B) :
    ProveRawT spr publicData fullWitness P = .ok (pr, fs) ↔
    ∃ dL dR dO dZ dH1 dH2 dH3 bo oz,
      P.Commit (clOf P spr publicData fullWitness) = .ok dL ∧
      P.Commit (crOf P spr publicData fullWitness) = .ok dR ∧
      P.Commit (coOf P spr publicData fullWitness) = .ok dO ∧
      P.Commit (zcOf P spr publicData fullWitness (gammaOf P dL dR dO)) =
        .ok dZ ∧
      P.Commit (h1Of P spr publicData fullWitness (gammaOf P dL dR dO)
        (alphaOf P dZ)) = .ok dH1 ∧
      P.Commit (h2Of P spr publicData fullWitness (gammaOf P dL dR dO)
        (alphaOf P dZ)) = .ok dH2 ∧
      P.Commit (h3Of P spr publicData fullWitness (gammaOf P dL dR dO)
        (alphaOf P dZ)) = .ok dH3 ∧
      P.BatchOpenSinglePoint (zetaOf P dH1 dH2 dH3)
        [dL, dR, dO, dZ, dH1, dH2, dH3]
        [clOf P spr publicData fullWitness, crOf P spr publicData fullWitness,
         coOf P spr publicData fullWitness,
         zcOf P spr publicData fullWitness (gammaOf P dL dR dO),
         h1Of P spr publicData fullWitness (gammaOf P dL dR dO)
           (alphaOf P dZ),
         h2Of P spr publicData fullWitness (gammaOf P dL dR dO)
           (alphaOf P dZ),
         h3Of P spr publicData fullWitness (gammaOf P dL dR dO)
           (alphaOf P dZ)] = .ok bo ∧
      P.OpenProofAt (zetaOf P dH1 dH2 dH3 * publicData.DomainNum.Generator)
        (zcOf P spr publicData fullWitness (gammaOf P dL dR dO)) = .ok oz ∧
      pr = finalProof P spr publicData fullWitness dL dR dO dZ dH1 dH2 dH3
        bo oz ∧
      fs = finalTranscript P dL dR dO dZ dH1 dH2 dH3 := by
  constructor
  · intro h
    simp only [ProveRawT] at h
    rw [except_bind_ok] at h
    obtain ⟨dL, hdL, h⟩ := h
    try dsimp only at h
    rw [except_bind_ok] at h
    obtain ⟨dR, hdR, h⟩ := h
    try dsimp only at h
    rw [except_bind_ok] at h
    obtain ⟨dO, hdO, h⟩ := h
    try dsimp only at h
    rw [tbind_gamma1, except_ok_bind] at h
    try dsimp only at h
    rw [tbind_gamma2, except_ok_bind] at h
    try dsimp only at h
    rw [tbind_gamma3, except_ok_bind] at h
    try dsimp only at h
    rw [tchallenge_gamma, except_ok_bind] at h
    try dsimp only at h
    rw [except_bind_ok] at h
    obtain ⟨dZ, hdZ, h⟩ := h
    try dsimp only at h
    rw [tbind_alpha, except_ok_bind] at h
    try dsimp only at h
    rw [tchallenge_alpha, except_ok_bind] at h
    try dsimp only at h
    rw [except_bind_ok] at h
    obtain ⟨dH1, hdH1, h⟩ := h
    try dsimp only at h
    rw [except_bind_ok] at h
    obtain ⟨dH2, hdH2, h⟩ := h
    try dsimp only at h
    rw [except_bind_ok] at h
    obtain ⟨dH3, hdH3, h⟩ := h
    try dsimp only at h
    rw [tbind_zeta1, except_ok_bind] at h
    try dsimp only at h
    rw [tbind_zeta2, except_ok_bind] at h
    try dsimp only at h
    rw [tbind_zeta3, except_ok_bind] at h
    try dsimp only at h
    rw [tchallenge_zeta, except_ok_bind] at h
    try dsimp only at h
    rw [except_bind_ok] at h
    obtain ⟨bo, hbo, h⟩ := h
    try dsimp only at h
    rw [except_bind_ok] at h
    obtain ⟨oz, hoz, h⟩ := h
    try dsimp only at h
    injection h with h1
    refine ⟨dL, dR, dO, dZ, dH1, dH2, dH3, bo, oz, hdL, hdR, hdO, hdZ,
      hdH1, hdH2, hdH3, hbo, hoz, ?_, ?_⟩
    · exact (congrArg Prod.fst h1).symm
    · exact (congrArg Prod.snd h1).symm
  · rintro ⟨dL, dR, dO, dZ, dH1, dH2, dH3, bo, oz, hdL, hdR, hdO, hdZ,
      hdH1, hdH2, hdH3, hbo, hoz, hpr, hfs⟩
    subst hpr
    subst hfs
    simp only [gammaOf] at hdZ hdH1 hdH2 hdH3 hbo hoz
    simp only [alphaOf] at hdH1 hdH2 hdH3 hbo
    simp only [zetaOf] at hbo hoz
    simp only [ProveRawT]
    rw [hdL, except_ok_bind]
    try dsimp only
    rw [hdR, except_ok_bind]
    try dsimp only
    rw [hdO, except_ok_bind]
    try dsimp only
    rw [tbind_gamma1, except_ok_bind]
    try dsimp only
    rw [tbind_gamma2, except_ok_bind]
    try dsimp only
    rw [tbind_gamma3, except_ok_bind]
    try dsimp only
    rw [tchallenge_gamma, except_ok_bind]
    try dsimp only
    rw [hdZ, except_ok_bind]
    try dsimp only
    rw [tbind_alpha, except_ok_bind]
    try dsimp only
    rw [tchallenge_alpha, except_ok_bind]
    try dsimp only
    rw [hdH1, except_ok_bind]
    try dsimp only
    rw [hdH2, except_ok_bind]
    try dsimp only
    rw [hdH3, except_ok_bind]
    try dsimp only
    rw [tbind_zeta1, except_ok_bind]
    try dsimp only
    rw [tbind_zeta2, except_ok_bind]
    try dsimp only
    rw [tbind_zeta3, except_ok_bind]
    try dsimp only
    rw [tchallenge_zeta, except_ok_bind]
    try dsimp only
    rw [hbo, except_ok_bind]
    try dsimp only
    rw [hoz, except_ok_bind]
    rfl

theorem hget_append_lt {F : Type} (h : Heap F) (a : List (List F))
    (r : Ref) (hr : r < h.length) : hget (h ++ a) r = hget h r := by
  simp only [hget]
  rw [List.getD_eq_getElem?_getD, List.getElem?_append_left hr,
    ← List.getD_eq_getElem?_getD]

theorem halloc_fst {F : Type} (h : Heap F) (a : List F) :
    (halloc h a).1 = h.length := rfl

theorem hget_hset_ne {F : Type} (h : Heap F) (s : Ref) (a : List F)
    (r : Ref) (hr : r ≠ s) : hget (hset h s a) r = hget h r := by
  simp only [hset, hget]
  rw [List.getD_eq_getElem?_getD, List.getElem?_set_ne (Ne.symm hr),
    ← List.getD_eq_getElem?_getD]

theorem hset_len {F : Type} (h : Heap F) (s : Ref) (a : List F) :
    (hset h s a).length = h.length := List.length_set h s a

theorem hget_hsetIdx_ne {F : Type} [Field F] (h : Heap F) (s i : Nat)
    (v : F) (r : Ref) (hr : r ≠ s) : hget (hsetIdx h s i v) r = hget h r :=
  hget_hset_ne h s _ r hr

theorem hsetIdx_len {F : Type} [Field F] (h : Heap F) (s i : Nat) (v : F) :
    (hsetIdx h s i v).length = h.length := hset_len h s _

theorem foldl_heap_frame {F : Type} (step : Heap F → Nat → Heap F)
    (S : List Ref)
    (hstep : ∀ (hh : Heap F) (i : Nat) (r : Ref), r ∉ S →
      hget (step hh i) r = hget hh r)
    (r : Ref) (hr : r ∉ S) :
    ∀ (l : List Nat) (hh : Heap F),
      hget (l.foldl step hh) r = hget hh r := by
  intro l
  induction l with
  | nil => intro hh; rfl
  | cons x xs ih =>
      intro hh
      rw [List.foldl_cons, ih (step hh x), hstep hh x r hr]

theorem foldl_heap_len {F : Type} (step : Heap F → Nat → Heap F)
    (hstep : ∀ hh i, (step hh i).length = hh.length) :
    ∀ (l : List Nat) (hh : Heap F),
      (l.foldl step hh).length = hh.length := by
  intro l
  induction l with
  | nil => intro hh; rfl
  | cons x xs ih => intro hh; rw [List.foldl_cons, ih, hstep]

theorem foldl_heap_frame' {F σ : Type}
    (step : Heap F × σ → Nat → Heap F × σ) (S : List Ref)
    (hstep : ∀ (st : Heap F × σ) (i : Nat) (r : Ref), r ∉ S →
      hget (step st i).1 r = hget st.1 r)
    (r : Ref) (hr : r ∉ S) :
    ∀ (l : List Nat) (st : Heap F × σ),
      hget (l.foldl step st).1 r = hget st.1 r := by
  intro l
  induction l with
  | nil => intro st; rfl
  | cons x xs ih =>
      intro st
      rw [List.foldl_cons, ih (step st x), hstep st x r hr]

theorem foldl_heap_len' {F σ : Type}
    (step : Heap F × σ → Nat → Heap F × σ)
    (hstep : ∀ st i, (step st i).1.length = st.1.length) :
    ∀ (l : List Nat) (st : Heap F × σ),
      (l.foldl step st).1.length = st.1.length := by
  intro l
  induction l with
  | nil => intro st; rfl
  | cons x xs ih => intro st; rw [List.foldl_cons, ih, hstep]

theorem evaluateCosetsH_frame {F D B BP OP Err : Type} [Field F]
    (P : Prims F D B BP OP Err) (poly res : Ref) (domain : Domain F)
    (h : Heap F) (r : Nat) (hr : r < h.length) (hne : r ≠ res) :
    hget (evaluateCosetsH P poly res domain h) r = hget h r := by
  have hmem : r ∉ [res] := by simpa using hne
  have f0 : r ≠ h.length := by omega
  have f1 : r ≠ h.length + 1 := by omega
  have f2 : r ≠ h.length + 2 := by omega
  have f3 : r ≠ h.length + 3 := by omega
  simp only [evaluateCosetsH, halloc, List.length_append, List.length_cons,
    List.length_nil]
  refine Eq.trans (foldl_heap_frame _ [res] ?_ r hmem _ _) ?_
  · intro hh i r' hr'
    have hner : r' ≠ res := by simpa using hr'
    try dsimp only
    rw [hget_hsetIdx_ne _ _ _ _ _ hner, hget_hsetIdx_ne _ _ _ _ _ hner,
      hget_hsetIdx_ne _ _ _ _ _ hner, hget_hsetIdx_ne _ _ _ _ _ hner]
  · simp only [List.append_assoc, List.cons_append, List.nil_append,
      hget_hset_ne _ _ _ _ f0, hget_hset_ne _ _ _ _ f1,
      hget_hset_ne _ _ _ _ f2, hget_hset_ne _ _ _ _ f3]
    rw [hget_append_lt _ _ _ hr]

theorem evaluateCosetsH_len {F D B BP OP Err : Type} [Field F]
    (P : Prims F D B BP OP Err) (poly res : Ref) (domain : Domain F)
    (h : Heap F) :
    (evaluateCosetsH P poly res domain h).length = h.length + 4 := by
  simp only [evaluateCosetsH, halloc]
  refine Eq.trans (foldl_heap_len _ ?_ _ _) ?_
  · intro hh i
    dsimp only
    simp only [hsetIdx_len]
  · simp only [hset_len, List.length_append, List.length_cons,
      List.length_nil]

theorem ComputeLROH_fst {F W E : Type} [Field F] (spr : SparseR1CS F W E)
    (publicData : PublicRawH F) (solution : List F) (h : Heap F) :
    (ComputeLROH spr publicData solution h).1 =
      (h.length, h.length + 1, h.length + 2, h.length + 3) := by
  simp only [ComputeLROH, halloc, List.length_append, List.length_cons,
    List.length_nil, Prod.mk.injEq]
  try omega

theorem ComputeLROH_len {F W E : Type} [Field F] (spr : SparseR1CS F W E)
    (publicData : PublicRawH F) (solution : List F) (h : Heap F) :
    (ComputeLROH spr publicData solution h).2.length = h.length + 4 := by
  simp only [ComputeLROH, halloc]
  refine Eq.trans (foldl_heap_len _ ?_ _ _) ?_
  · intro hh i
    try dsimp only
    simp only [hsetIdx_len]
  refine Eq.trans (foldl_heap_len _ ?_ _ _) ?_
  · intro hh i
    try dsimp only
    simp only [hsetIdx_len]
  refine Eq.trans (foldl_heap_len _ ?_ _ _) ?_
  · intro hh i
    try dsimp only
    simp only [hsetIdx_len]
  refine Eq.trans (foldl_heap_len _ ?_ _ _) ?_
  · intro hh i
    try dsimp only
    simp only [hsetIdx_len]
  simp only [List.length_append, List.length_cons, List.length_nil]
  try omega

theorem ComputeLROH_frame {F W E : Type} [Field F] (spr : SparseR1CS F W E)
    (publicData : PublicRawH F) (solution : List F) (h : Heap F)
    (r : Nat) (hr : r < h.length) :
    hget (ComputeLROH spr publicData solution h).2 r = hget h r := by
  have hmem : r ∉ [h.length, h.length + 1, h.length + 2, h.length + 3] := by
    simp
    omega
  simp only [ComputeLROH, halloc, List.length_append, List.length_cons,
    List.length_nil, List.append_assoc, List.cons_append, List.nil_append]
  refine Eq.trans (foldl_heap_frame _
    [h.length, h.length + 1, h.length + 2, h.length + 3] ?_ r hmem _ _) ?_
  · intro hh i r' hm
    simp at hm
    obtain ⟨n1, n2, n3, n4⟩ := hm
    try dsimp only
    rw [hget_hsetIdx_ne _ _ _ _ _ n4, hget_hsetIdx_ne _ _ _ _ _ n3,
      hget_hsetIdx_ne _ _ _ _ _ n2, hget_hsetIdx_ne _ _ _ _ _ n1]
  refine Eq.trans (foldl_heap_frame _
    [h.length, h.length + 1, h.length + 2, h.length + 3] ?_ r hmem _ _) ?_
  · intro hh i r' hm
    simp at hm
    obtain ⟨n1, n2, n3, n4⟩ := hm
    try dsimp only
    rw [hget_hsetIdx_ne _ _ _ _ _ n4, hget_hsetIdx_ne _ _ _ _ _ n3,
      hget_hsetIdx_ne _ _ _ _ _ n2, hget_hsetIdx_ne _ _ _ _ _ n1]
  refine Eq.trans (foldl_heap_frame _
    [h.length, h.length + 1, h.length + 2, h.length + 3] ?_ r hmem _ _) ?_
  · intro hh i r' hm
    simp at hm
    obtain ⟨n1, n2, n3, n4⟩ := hm
    try dsimp only
    rw [hget_hsetIdx_ne _ _ _ _ _ n4, hget_hsetIdx_ne _ _ _ _ _ n3,
      hget_hsetIdx_ne _ _ _ _ _ n2, hget_hsetIdx_ne _ _ _ _ _ n1]
  refine Eq.trans (foldl_heap_frame _
    [h.length, h.length + 1, h.length + 2, h.length + 3] ?_ r hmem _ _) ?_
  · intro hh i r' hm
    simp at hm
    obtain ⟨n1, n2, n3, n4⟩ := hm
    try dsimp only
    rw [hget_hsetIdx_ne _ _ _ _ _ n3, hget_hsetIdx_ne _ _ _ _ _ n2,
      hget_hsetIdx_ne _ _ _ _ _ n1]
  exact hget_append_lt _ _ _ hr

theorem ComputeZH_fst {F : Type} [Field F] (l r o : Ref)
    (publicData : PublicRawH F) (gamma : F) (h : Heap F) :
    (ComputeZH l r o publicData gamma h).1 = h.length := rfl

theorem ComputeZH_len {F : Type} [Field F] (l r o : Ref)
    (publicData : PublicRawH F) (gamma : F) (h : Heap F) :
    (ComputeZH l r o publicData gamma h).2.length = h.length + 1 := by
  simp only [ComputeZH, halloc]
  refine Eq.trans (foldl_heap_len' _ ?_ _ _) ?_
  · intro st i
    try dsimp only
    simp only [hsetIdx_len]
  · try dsimp only
    simp only [hsetIdx_len, List.length_append, List.length_cons,
      List.length_nil]

theorem ComputeZH_frame {F : Type} [Field F] (l r o : Ref)
    (publicData : PublicRawH F) (gamma : F) (h : Heap F)
    (r' : Nat) (hr : r' < h.length) :
    hget (ComputeZH l r o publicData gamma h).2 r' = hget h r' := by
  have f0 : r' ≠ h.length := by omega
  have hmem : r' ∉ [h.length] := by simpa using f0
  simp only [ComputeZH, halloc]
  refine Eq.trans (foldl_heap_frame' _ [h.length] ?_ r' hmem _ _) ?_
  · intro st i r'' hm
    have hne : r'' ≠ h.length := by simpa using hm
    try dsimp only
    rw [hget_hsetIdx_ne _ _ _ _ _ hne]
  · try dsimp only
    rw [hget_hsetIdx_ne _ _ _ _ _ f0]
    exact hget_append_lt _ _ _ hr

theorem shiftZH_fst {F : Type} [Field F] (z : Ref) (h : Heap F) :
    (shiftZH z h).1 = h.length := rfl

theorem shiftZH_len {F : Type} [Field F] (z : Ref) (h : Heap F) :
    (shiftZH z h).2.length = h.length + 1 := by
  simp only [shiftZH, halloc, hsetIdx_len]
  refine Eq.trans (foldl_heap_len _ ?_ _ _) ?_
  · intro hh i
    try dsimp only
    simp only [hsetIdx_len]
  · simp only [hset_len, List.length_append, List.length_cons,
      List.length_nil]

theorem shiftZH_frame {F : Type} [Field F] (z : Ref) (h : Heap F)
    (r : Nat) (hr : r < h.length) :
    hget (shiftZH z h).2 r = hget h r := by
  have f0 : r ≠ h.length := by omega
  have hmem : r ∉ [h.length] := by simpa using f0
  simp only [shiftZH, halloc]
  rw [hget_hsetIdx_ne _ _ _ _ _ f0]
  refine Eq.trans (foldl_heap_frame _ [h.length] ?_ r hmem _ _) ?_
  · intro hh i r' hm
    have hne : r' ≠ h.length := by simpa using hm
    try dsimp only
    rw [hget_hsetIdx_ne _ _ _ _ _ hne]
  · rw [hget_hset_ne _ _ _ _ f0]
    exact hget_append_lt _ _ _ hr

theorem evalConstraintsH_fst {F D B BP OP Err : Type} [Field F]
    (P : Prims F D B BP OP Err) (publicData : PublicRawH F)
    (evalL evalR evalO : Ref) (h : Heap F) :
    (evalConstraintsH P publicData evalL evalR evalO h).1 = h.length := rfl

theorem evalConstraintsH_len {F D B BP OP Err : Type} [Field F]
    (P : Prims F D B BP OP Err) (publicData : PublicRawH F)
    (evalL evalR evalO : Ref) (h : Heap F) :
    (evalConstraintsH P publicData evalL evalR evalO h).2.length =
      h.length + 26 := by
  simp only [evalConstraintsH, halloc]
  refine Eq.trans (foldl_heap_len _ ?_ _ _) ?_
  · intro hh i
    try dsimp only
    simp only [hsetIdx_len]
  simp only [evaluateCosetsH_len, List.length_append, List.length_cons,
    List.length_nil]
  try omega

theorem evalConstraintsH_frame {F D B BP OP Err : Type} [Field F]
    (P : Prims F D B BP OP Err) (publicData : PublicRawH F)
    (evalL evalR evalO : Ref) (h : Heap F) (r : Nat) (hr : r < h.length) :
    hget (evalConstraintsH P publicData evalL evalR evalO h).2 r =
      hget h r := by
  have f0 : r ≠ h.length := by omega
  have hmem : r ∉ [h.length] := by simpa using f0
  simp only [evalConstraintsH, halloc, List.length_append, List.length_cons,
    List.length_nil, List.append_assoc, List.cons_append, List.nil_append,
    add_assoc]
  refine Eq.trans (foldl_heap_frame _ [h.length] ?_ r hmem _ _) ?_
  · intro hh i r' hm
    have hne : r' ≠ h.length := by simpa using hm
    try dsimp only
    rw [hget_hsetIdx_ne _ _ _ _ _ hne]
  refine Eq.trans (evaluateCosetsH_frame _ _ _ _ _ _ ?_ ?_) ?_
  · simp only [evaluateCosetsH_len, List.length_append, List.length_cons,
      List.length_nil]
    omega
  · omega
  refine Eq.trans (evaluateCosetsH_frame _ _ _ _ _ _ ?_ ?_) ?_
  · simp only [evaluateCosetsH_len, List.length_append, List.length_cons,
      List.length_nil]
    omega
  · omega
  refine Eq.trans (evaluateCosetsH_frame _ _ _ _ _ _ ?_ ?_) ?_
  · simp only [evaluateCosetsH_len, List.length_append, List.length_cons,
      List.length_nil]
    omega
  · omega
  refine Eq.trans (evaluateCosetsH_frame _ _ _ _ _ _ ?_ ?_) ?_
  · simp only [evaluateCosetsH_len, List.length_append, List.length_cons,
      List.length_nil]
    omega
  · omega
  refine Eq.trans (evaluateCosetsH_frame _ _ _ _ _ _ ?_ ?_) ?_
  · simp only [evaluateCosetsH_len, List.length_append, List.length_cons,
      List.length_nil]
    omega
  · omega
  exact hget_append_lt _ _ _ hr

theorem idCosetGeneratorLoop_len {F : Type} [Field F]
    (publicData : PublicRawH F) (idr : Ref) (h : Heap F) :
    (idCosetGeneratorLoop publicData idr h).length = h.length := by
  simp only [idCosetGeneratorLoop]
  refine foldl_heap_len _ ?_ _ _
  intro hh i
  try dsimp only
  simp only [hsetIdx_len]

theorem idCosetGeneratorLoop_frame {F : Type} [Field F]
    (publicData : PublicRawH F) (idr : Ref) (h : Heap F) (r : Nat)
    (hne : r ≠ idr) :
    hget (idCosetGeneratorLoop publicData idr h) r = hget h r := by
  have hmem : r ∉ [idr] := by simpa using hne
  simp only [idCosetGeneratorLoop]
  refine foldl_heap_frame _ [idr] ?_ r hmem _ _
  intro hh i r' hm
  have hne' : r' ≠ idr := by simpa using hm
  try dsimp only
  rw [hget_hsetIdx_ne _ _ _ _ _ hne', hget_hsetIdx_ne _ _ _ _ _ hne',
    hget_hsetIdx_ne _ _ _ _ _ hne', hget_hsetIdx_ne _ _ _ _ _ hne']

theorem idCosetScaleLoop_len {F : Type} [Field F]
    (publicData : PublicRawH F) (idr uid uuid : Ref) (h : Heap F) :
    (idCosetScaleLoop publicData idr uid uuid h).length = h.length := by
  simp only [idCosetScaleLoop]
  refine foldl_heap_len _ ?_ _ _
  intro hh i
  try dsimp only
  simp only [hsetIdx_len]

theorem idCosetScaleLoop_frame {F : Type} [Field F]
    (publicData : PublicRawH F) (idr uid uuid : Ref) (h : Heap F) (r : Nat)
    (hne1 : r ≠ idr) (hne2 : r ≠ uid) (hne3 : r ≠ uuid) :
    hget (idCosetScaleLoop publicData idr uid uuid h) r = hget h r := by
  have hmem : r ∉ [idr, uid, uuid] := by simp; exact ⟨hne1, hne2, hne3⟩
  simp only [idCosetScaleLoop]
  refine foldl_heap_frame _ [idr, uid, uuid] ?_ r hmem _ _
  intro hh i r' hm
  simp at hm
  obtain ⟨n1, n2, n3⟩ := hm
  try dsimp only
  rw [hget_hsetIdx_ne _ _ _ _ _ n3, hget_hsetIdx_ne _ _ _ _ _ n3,
    hget_hsetIdx_ne _ _ _ _ _ n3, hget_hsetIdx_ne _ _ _ _ _ n3,
    hget_hsetIdx_ne _ _ _ _ _ n2, hget_hsetIdx_ne _ _ _ _ _ n2,
    hget_hsetIdx_ne _ _ _ _ _ n2, hget_hsetIdx_ne _ _ _ _ _ n2,
    hget_hsetIdx_ne _ _ _ _ _ n1, hget_hsetIdx_ne _ _ _ _ _ n1,
    hget_hsetIdx_ne _ _ _ _ _ n1, hget_hsetIdx_ne _ _ _ _ _ n1]

theorem evalIDCosetsH_fst {F : Type} [Field F] (publicData : PublicRawH F)
    (h : Heap F) :
    (evalIDCosetsH publicData h).1 =
      (h.length, h.length + 1, h.length + 2) := by
  simp only [evalIDCosetsH, halloc, idCosetGeneratorLoop_len, hsetIdx_len,
    List.length_append, List.length_cons, List.length_nil, add_assoc,
    zero_add, Nat.reduceAdd, Prod.mk.injEq, and_true, true_and]
  try omega

theorem evalIDCosetsH_len {F : Type} [Field F] (publicData : PublicRawH F)
    (h : Heap F) :
    (evalIDCosetsH publicData h).2.length = h.length + 3 := by
  simp only [evalIDCosetsH, halloc, idCosetScaleLoop_len,
    idCosetGeneratorLoop_len, hsetIdx_len, List.length_append,
    List.length_cons, List.length_nil]
  try omega

theorem evalIDCosetsH_frame {F : Type} [Field F] (publicData : PublicRawH F)
    (h : Heap F) (r : Nat) (hr : r < h.length) :
    hget (evalIDCosetsH publicData h).2 r = hget h r := by
  have f0 : r ≠ h.length := by omega
  have f1 : r ≠ h.length + 1 := by omega
  have f2 : r ≠ h.length + 2 := by omega
  simp only [evalIDCosetsH, halloc, idCosetGeneratorLoop_len, hsetIdx_len,
    List.length_append, List.length_cons, List.length_nil,
    List.append_assoc, List.cons_append, List.nil_append, add_assoc]
  refine Eq.trans (idCosetScaleLoop_frame _ _ _ _ _ _ f0 f1 f2) ?_
  refine Eq.trans (hget_append_lt _ _ _ ?_) ?_
  · simp only [idCosetGeneratorLoop_len, hsetIdx_len, List.length_append,
      List.length_cons, List.length_nil]
    exact Nat.lt_add_right _ hr
  refine Eq.trans (idCosetGeneratorLoop_frame _ _ _ _ f0) ?_
  rw [hget_hsetIdx_ne _ _ _ _ _ f0, hget_hsetIdx_ne _ _ _ _ _ f0,
    hget_hsetIdx_ne _ _ _ _ _ f0, hget_hsetIdx_ne _ _ _ _ _ f0]
  exact hget_append_lt _ _ _ hr

theorem evalConstraintOrderingH_fst {F D B BP OP Err : Type} [Field F]
    (P : Prims F D B BP OP Err) (publicData : PublicRawH F)
    (evalZ evalZu evalL evalR evalO : Ref) (gamma : F) (h : Heap F) :
    (evalConstraintOrderingH P publicData evalZ evalZu evalL evalR evalO
      gamma h).1 = h.length + 18 := by
  simp only [evalConstraintOrderingH, halloc, evaluateCosetsH_len,
    evalIDCosetsH_len, List.length_append, List.length_cons,
    List.length_nil, add_assoc, zero_add, Nat.reduceAdd]
  try omega

theorem evalConstraintOrderingH_len {F D B BP OP Err : Type} [Field F]
    (P : Prims F D B BP OP Err) (publicData : PublicRawH F)
    (evalZ evalZu evalL evalR evalO : Ref) (gamma : F) (h : Heap F) :
    (evalConstraintOrderingH P publicData evalZ evalZu evalL evalR evalO
      gamma h).2.length = h.length + 19 := by
  simp only [evalConstraintOrderingH, halloc]
  refine Eq.trans (foldl_heap_len _ ?_ _ _) ?_
  · intro hh i
    try dsimp only
    simp only [hsetIdx_len]
  simp only [evaluateCosetsH_len, evalIDCosetsH_len, List.length_append,
    List.length_cons, List.length_nil, add_assoc, zero_add, Nat.reduceAdd]
  try omega

theorem evalConstraintOrderingH_frame {F D B BP OP Err : Type} [Field F]
    (P : Prims F D B BP OP Err) (publicData : PublicRawH F)
    (evalZ evalZu evalL evalR evalO : Ref) (gamma : F) (h : Heap F)
    (r : Nat) (hr : r < h.length) :
    hget (evalConstraintOrderingH P publicData evalZ evalZu evalL evalR
      evalO gamma h).2 r = hget h r := by
  have fres : r ≠ h.length + 18 := by omega
  have hmem : r ∉ [h.length + 18] := by simpa using fres
  simp only [evalConstraintOrderingH, halloc, evaluateCosetsH_len,
    evalIDCosetsH_len, List.length_append, List.length_cons,
    List.length_nil, List.append_assoc, List.cons_append, List.nil_append,
    add_assoc, zero_add, Nat.reduceAdd]
  refine Eq.trans (foldl_heap_frame _ [h.length + 18] ?_ r hmem _ _) ?_
  · intro hh i r' hm
    have hne : r' ≠ h.length + 18 := by simpa using hm
    try dsimp only
    rw [hget_hsetIdx_ne _ _ _ _ _ hne]
  refine Eq.trans (hget_append_lt _ _ _ ?_) ?_
  · simp only [evalIDCosetsH_len, evaluateCosetsH_len, List.length_append,
      List.length_cons, List.length_nil, add_assoc, zero_add,
      Nat.reduceAdd]
    exact Nat.lt_add_right _ hr
  refine Eq.trans (evalIDCosetsH_frame _ _ _ ?_) ?_
  · simp only [evaluateCosetsH_len, List.length_append, List.length_cons,
      List.length_nil, add_assoc, zero_add, Nat.reduceAdd]
    exact Nat.lt_add_right _ hr
  refine Eq.trans (evaluateCosetsH_frame _ _ _ _ _ _ ?_ ?_) ?_
  · simp only [evaluateCosetsH_len, List.length_append, List.length_cons,
      List.length_nil, add_assoc, zero_add, Nat.reduceAdd]
    exact Nat.lt_add_right _ hr
  · omega
  refine Eq.trans (evaluateCosetsH_frame _ _ _ _ _ _ ?_ ?_) ?_
  · simp only [evaluateCosetsH_len, List.length_append, List.length_cons,
      List.length_nil, add_assoc, zero_add, Nat.reduceAdd]
    exact Nat.lt_add_right _ hr
  · omega
  refine Eq.trans (evaluateCosetsH_frame _ _ _ _ _ _ ?_ ?_) ?_
  · simp only [evaluateCosetsH_len, List.length_append, List.length_cons,
      List.length_nil, add_assoc, zero_add, Nat.reduceAdd]
    exact Nat.lt_add_right _ hr
  · omega
  exact hget_append_lt _ _ _ hr

theorem evalStartsAtOneH_fst {F D B BP OP Err : Type} [Field F]
    (P : Prims F D B BP OP Err) (publicData : PublicRawH F) (evalZ : Ref)
    (h : Heap F) :
    (evalStartsAtOneH P publicData evalZ h).1 = h.length + 1 := by
  simp only [evalStartsAtOneH, halloc, hset_len, hsetIdx_len,
    List.length_append, List.length_cons, List.length_nil, add_assoc,
    zero_add, Nat.reduceAdd]
  try omega

theorem evalStartsAtOneH_len {F D B BP OP Err : Type} [Field F]
    (P : Prims F D B BP OP Err) (publicData : PublicRawH F) (evalZ : Ref)
    (h : Heap F) :
    (evalStartsAtOneH P publicData evalZ h).2.length = h.length + 6 := by
  simp only [evalStartsAtOneH, halloc]
  refine Eq.trans (foldl_heap_len _ ?_ _ _) ?_
  · intro hh i
    try dsimp only
    simp only [hsetIdx_len]
  simp only [evaluateCosetsH_len, hset_len, hsetIdx_len,
    List.length_append, List.length_cons, List.length_nil, add_assoc,
    zero_add, Nat.reduceAdd]
  try omega

theorem evalStartsAtOneH_frame {F D B BP OP Err : Type} [Field F]
    (P : Prims F D B BP OP Err) (publicData : PublicRawH F) (evalZ : Ref)
    (h : Heap F) (r : Nat) (hr : r < h.length) :
    hget (evalStartsAtOneH P publicData evalZ h).2 r = hget h r := by
  have f0 : r ≠ h.length := by omega
  have f1 : r ≠ h.length + 1 := by omega
  have hmem : r ∉ [h.length + 1] := by simpa using f1
  simp only [evalStartsAtOneH, halloc, hset_len, hsetIdx_len,
    List.length_append, List.length_cons, List.length_nil,
    List.append_assoc, List.cons_append, List.nil_append, add_assoc,
    zero_add, Nat.reduceAdd]
  refine Eq.trans (foldl_heap_frame _ [h.length + 1] ?_ r hmem _ _) ?_
  · intro hh i r' hm
    have hne : r' ≠ h.length + 1 := by simpa using hm
    try dsimp only
    rw [hget_hsetIdx_ne _ _ _ _ _ hne]
  refine Eq.trans (evaluateCosetsH_frame _ _ _ _ _ _ ?_ f1) ?_
  · simp only [hset_len, hsetIdx_len, List.length_append, List.length_cons,
      List.length_nil, add_assoc, zero_add, Nat.reduceAdd]
    exact Nat.lt_add_right _ hr
  refine Eq.trans (hget_append_lt _ _ _ ?_) ?_
  · simp only [hset_len, hsetIdx_len, List.length_append, List.length_cons,
      List.length_nil, add_assoc, zero_add, Nat.reduceAdd]
    exact Nat.lt_add_right _ hr
  rw [hget_hset_ne _ _ _ _ f0, hget_hset_ne _ _ _ _ f0,
    hget_hsetIdx_ne _ _ _ _ _ f0]
  exact hget_append_lt _ _ _ hr

theorem computeHCombineLoop_len {F : Type} [Field F]
    (publicData : PublicRawH F)
    (constraintsInd constraintOrdering startsAtOne hq : Ref) (alpha : F)
    (h : Heap F) :
    (computeHCombineLoop publicData constraintsInd constraintOrdering
      startsAtOne hq alpha h).length = h.length := by
  simp only [computeHCombineLoop]
  refine foldl_heap_len _ ?_ _ _
  intro hh i
  try dsimp only
  simp only [hsetIdx_len]

theorem computeHCombineLoop_frame {F : Type} [Field F]
    (publicData : PublicRawH F)
    (constraintsInd constraintOrdering startsAtOne hq : Ref) (alpha : F)
    (h : Heap F) (r : Nat) (hne : r ≠ hq) :
    hget (computeHCombineLoop publicData constraintsInd constraintOrdering
      startsAtOne hq alpha h) r = hget h r := by
  have hmem : r ∉ [hq] := by simpa using hne
  simp only [computeHCombineLoop]
  refine foldl_heap_frame _ [hq] ?_ r hmem _ _
  intro hh i r' hm
  have hne' : r' ≠ hq := by simpa using hm
  try dsimp only
  rw [hget_hsetIdx_ne _ _ _ _ _ hne']

theorem computeHVanishingLoop_len {F : Type} [Field F]
    (publicData : PublicRawH F) (hq : Ref) (h : Heap F) :
    (computeHVanishingLoop publicData hq h).length = h.length := by
  simp only [computeHVanishingLoop]
  refine foldl_heap_len _ ?_ _ _
  intro hh i
  try dsimp only
  simp only [hsetIdx_len]

theorem computeHVanishingLoop_frame {F : Type} [Field F]
    (publicData : PublicRawH F) (hq : Ref) (h : Heap F) (r : Nat)
    (hne : r ≠ hq) :
    hget (computeHVanishingLoop publicData hq h) r = hget h r := by
  have hmem : r ∉ [hq] := by simpa using hne
  simp only [computeHVanishingLoop]
  refine foldl_heap_frame _ [hq] ?_ r hmem _ _
  intro hh i r' hm
  have hne' : r' ≠ hq := by simpa using hm
  try dsimp only
  rw [hget_hsetIdx_ne _ _ _ _ _ hne', hget_hsetIdx_ne _ _ _ _ _ hne',
    hget_hsetIdx_ne _ _ _ _ _ hne', hget_hsetIdx_ne _ _ _ _ _ hne']

theorem computeHH_fst {F D B BP OP Err : Type} [Field F]
    (P : Prims F D B BP OP Err) (publicData : PublicRawH F)
    (constraintsInd constraintOrdering startsAtOne : Ref) (alpha : F)
    (h : Heap F) :
    (computeHH P publicData constraintsInd constraintOrdering startsAtOne
      alpha h).1 = (h.length + 1, h.length + 2, h.length + 3) := by
  simp only [computeHH, halloc, computeHCombineLoop_len,
    computeHVanishingLoop_len, hset_len, List.length_append,
    List.length_cons, List.length_nil, add_assoc, zero_add, Nat.reduceAdd,
    Prod.mk.injEq, and_true, true_and]
  try omega

theorem computeHH_len {F D B BP OP Err : Type} [Field F]
    (P : Prims F D B BP OP Err) (publicData : PublicRawH F)
    (constraintsInd constraintOrdering startsAtOne : Ref) (alpha : F)
    (h : Heap F) :
    (computeHH P publicData constraintsInd constraintOrdering startsAtOne
      alpha h).2.length = h.length + 4 := by
  simp only [computeHH, halloc, computeHCombineLoop_len,
    computeHVanishingLoop_len, hset_len, List.length_append,
    List.length_cons, List.length_nil, add_assoc, zero_add, Nat.reduceAdd]
  try omega

theorem computeHH_frame {F D B BP OP Err : Type} [Field F]
    (P : Prims F D B BP OP Err) (publicData : PublicRawH F)
    (constraintsInd constraintOrdering startsAtOne : Ref) (alpha : F)
    (h : Heap F) (r : Nat) (hr : r < h.length) :
    hget (computeHH P publicData constraintsInd constraintOrdering
      startsAtOne alpha h).2 r = hget h r := by
  have f0 : r ≠ h.length := by omega
  have f1 : r ≠ h.length + 1 := by omega
  have f2 : r ≠ h.length + 2 := by omega
  have f3 : r ≠ h.length + 3 := by omega
  simp only [computeHH, halloc, computeHCombineLoop_len,
    computeHVanishingLoop_len, hset_len, List.length_append,
    List.length_cons, List.length_nil, List.append_assoc,
    List.cons_append, List.nil_append, add_assoc, zero_add, Nat.reduceAdd]
  simp only [hget_hset_ne _ _ _ _ f1, hget_hset_ne _ _ _ _ f2,
    hget_hset_ne _ _ _ _ f3]
  refine Eq.trans (hget_append_lt _ _ _ ?_) ?_
  · simp only [hset_len, computeHVanishingLoop_len, computeHCombineLoop_len,
      List.length_append, List.length_cons, List.length_nil, add_assoc,
      zero_add, Nat.reduceAdd]
    exact Nat.lt_add_right _ hr
  simp only [hget_hset_ne _ _ _ _ f0]
  refine Eq.trans (computeHVanishingLoop_frame _ _ _ _ f0) ?_
  refine Eq.trans (computeHCombineLoop_frame _ _ _ _ _ _ _ _ f0) ?_
  exact hget_append_lt _ _ _ hr

theorem proveRawHRound1_len {F D B BP OP Err W E : Type} [Field F]
    (P : Prims F D B BP OP Err) (spr : SparseR1CS F W E)
    (publicData : PublicRawH F) (fullWitness : W) (h : Heap F) :
    (proveRawHRound1 P spr publicData fullWitness h).2.length =
      h.length + 7 := by
  simp only [proveRawHRound1, halloc, ComputeLROH_len, hset_len,
    List.length_append, List.length_cons, List.length_nil, add_assoc,
    zero_add, Nat.reduceAdd]
  try omega

theorem proveRawHRound1_frame {F D B BP OP Err W E : Type} [Field F]
    (P : Prims F D B BP OP Err) (spr : SparseR1CS F W E)
    (publicData : PublicRawH F) (fullWitness : W) (h : Heap F)
    (r : Nat) (hr : r < h.length) :
    hget (proveRawHRound1 P spr publicData fullWitness h).2 r =
      hget h r := by
  have f3 : r ≠ h.length + 3 := by omega
  have f4 : r ≠ h.length + 4 := by omega
  have f5 : r ≠ h.length + 5 := by omega
  have f6 : r ≠ h.length + 6 := by omega
  simp only [proveRawHRound1, halloc, ComputeLROH_fst, ComputeLROH_len,
    List.length_append, List.length_cons, List.length_nil,
    List.append_assoc, List.cons_append, List.nil_append, add_assoc,
    zero_add, Nat.reduceAdd]
  simp only [hget_hset_ne _ _ _ _ f3, hget_hset_ne _ _ _ _ f4,
    hget_hset_ne _ _ _ _ f5, hget_hset_ne _ _ _ _ f6]
  refine Eq.trans (hget_append_lt _ _ _ ?_) ?_
  · simp only [ComputeLROH_len, List.length_append, List.length_cons,
      List.length_nil, add_assoc, zero_add, Nat.reduceAdd]
    exact Nat.lt_add_right _ hr
  exact ComputeLROH_frame _ _ _ _ _ hr

theorem proveRawHRound2_len {F D B BP OP Err : Type} [Field F]
    (P : Prims F D B BP OP Err) (publicData : PublicRawH F)
    (ll lr lo cl cr co : Ref) (gamma : F) (h : Heap F) :
    (proveRawHRound2 P publicData ll lr lo cl cr co gamma h).2.length =
      h.length + 78 := by
  simp only [proveRawHRound2, halloc, ComputeZH_len, shiftZH_len,
    evaluateCosetsH_len, evalConstraintsH_len, evalConstraintOrderingH_len,
    evalStartsAtOneH_len, hset_len, List.length_append, List.length_cons,
    List.length_nil, add_assoc, zero_add, Nat.reduceAdd]
  try omega

theorem proveRawHRound2_frame {F D B BP OP Err : Type} [Field F]
    (P : Prims F D B BP OP Err) (publicData : PublicRawH F)
    (ll lr lo cl cr co : Ref) (gamma : F) (h : Heap F)
    (r : Nat) (hr : r < h.length) :
    hget (proveRawHRound2 P publicData ll lr lo cl cr co gamma h).2 r =
      hget h r := by
  have fz : r ≠ h.length := by omega
  have fzu : r ≠ h.length + 1 := by omega
  simp only [proveRawHRound2, halloc, ComputeZH_fst, ComputeZH_len,
    shiftZH_fst, shiftZH_len, evaluateCosetsH_len, evalConstraintsH_len,
    evalConstraintsH_fst, hset_len, List.length_append, List.length_cons,
    List.length_nil, List.append_assoc, List.cons_append, List.nil_append,
    add_assoc, zero_add, Nat.reduceAdd]
  refine Eq.trans (evalStartsAtOneH_frame _ _ _ _ _ ?_) ?_
  · simp only [evalConstraintOrderingH_len, evalConstraintsH_len,
      evaluateCosetsH_len, hset_len, shiftZH_len, ComputeZH_len,
      List.length_append, List.length_cons, List.length_nil, add_assoc,
      zero_add, Nat.reduceAdd]
    exact Nat.lt_add_right _ hr
  refine Eq.trans (evalConstraintOrderingH_frame _ _ _ _ _ _ _ _ _ _ ?_) ?_
  · simp only [evalConstraintsH_len, evaluateCosetsH_len, hset_len,
      shiftZH_len, ComputeZH_len, List.length_append, List.length_cons,
      List.length_nil, add_assoc, zero_add, Nat.reduceAdd]
    exact Nat.lt_add_right _ hr
  refine Eq.trans (evaluateCosetsH_frame _ _ _ _ _ _ ?_ ?_) ?_
  · simp only [evalConstraintsH_len, evaluateCosetsH_len, hset_len,
      shiftZH_len, ComputeZH_len, List.length_append, List.length_cons,
      List.length_nil, add_assoc, zero_add, Nat.reduceAdd]
    exact Nat.lt_add_right _ hr
  · omega
  refine Eq.trans (evaluateCosetsH_frame _ _ _ _ _ _ ?_ ?_) ?_
  · simp only [evalConstraintsH_len, evaluateCosetsH_len, hset_len,
      shiftZH_len, ComputeZH_len, List.length_append, List.length_cons,
      List.length_nil, add_assoc, zero_add, Nat.reduceAdd]
    exact Nat.lt_add_right _ hr
  · omega
  refine Eq.trans (hget_append_lt _ _ _ ?_) ?_
  · simp only [evalConstraintsH_len, evaluateCosetsH_len, hset_len,
      shiftZH_len, ComputeZH_len, List.length_append, List.length_cons,
      List.length_nil, add_assoc, zero_add, Nat.reduceAdd]
    exact Nat.lt_add_right _ hr
  simp only [hget_hset_ne _ _ _ _ fz, hget_hset_ne _ _ _ _ fzu]
  refine Eq.trans (evalConstraintsH_frame _ _ _ _ _ _ _ ?_) ?_
  · simp only [evaluateCosetsH_len, shiftZH_len, ComputeZH_len,
      List.length_append, List.length_cons, List.length_nil, add_assoc,
      zero_add, Nat.reduceAdd]
    exact Nat.lt_add_right _ hr
  refine Eq.trans (evaluateCosetsH_frame _ _ _ _ _ _ ?_ ?_) ?_
  · simp only [evaluateCosetsH_len, shiftZH_len, ComputeZH_len,
      List.length_append, List.length_cons, List.length_nil, add_assoc,
      zero_add, Nat.reduceAdd]
    exact Nat.lt_add_right _ hr
  · omega
  refine Eq.trans (evaluateCosetsH_frame _ _ _ _ _ _ ?_ ?_) ?_
  · simp only [evaluateCosetsH_len, shiftZH_len, ComputeZH_len,
      List.length_append, List.length_cons, List.length_nil, add_assoc,
      zero_add, Nat.reduceAdd]
    exact Nat.lt_add_right _ hr
  · omega
  refine Eq.trans (evaluateCosetsH_frame _ _ _ _ _ _ ?_ ?_) ?_
  · simp only [shiftZH_len, ComputeZH_len, List.length_append,
      List.length_cons, List.length_nil, add_assoc, zero_add,
      Nat.reduceAdd]
    exact Nat.lt_add_right _ hr
  · omega
  refine Eq.trans (hget_append_lt _ _ _ ?_) ?_
  · simp only [shiftZH_len, ComputeZH_len, add_assoc, zero_add,
      Nat.reduceAdd]
    exact Nat.lt_add_right _ hr
  refine Eq.trans (shiftZH_frame _ _ _ ?_) ?_
  · simp only [ComputeZH_len, add_assoc, zero_add, Nat.reduceAdd]
    exact Nat.lt_add_right _ hr
  exact ComputeZH_frame _ _ _ _ _ _ _ hr

set_option maxHeartbeats 4000000 in
theorem ProveRawH_frame {F D B BP OP Err W E : Type} [Field F]
    (spr : SparseR1CS F W E) (publicData : PublicRawH F) (fullWitness : W)
    (P : Prims F D B BP OP Err) (h : Heap F) (r : Nat)
    (hr : r < h.length) :
    hget (ProveRawH spr publicData fullWitness P h).2 r = hget h r := by
  have A1 : hget (proveRawHRound1 P spr publicData fullWitness h).2 r =
      hget h r := proveRawHRound1_frame _ _ _ _ _ _ hr
  have hL1 : r < (proveRawHRound1 P spr publicData fullWitness h).2.length := by
    rw [proveRawHRound1_len]
    exact Nat.lt_add_right _ hr
  have A2 : ∀ l1 l2 l3 c1 c2 c3 g,
      hget (proveRawHRound2 P publicData l1 l2 l3 c1 c2 c3 g
        (proveRawHRound1 P spr publicData fullWitness h).2).2 r =
        hget h r :=
    fun l1 l2 l3 c1 c2 c3 g =>
      Eq.trans (proveRawHRound2_frame _ _ _ _ _ _ _ _ _ _ _ hL1) A1
  have hL2 : ∀ l1 l2 l3 c1 c2 c3 g,
      r < (proveRawHRound2 P publicData l1 l2 l3 c1 c2 c3 g
        (proveRawHRound1 P spr publicData fullWitness h).2).2.length := by
    intro l1 l2 l3 c1 c2 c3 g
    rw [proveRawHRound2_len, proveRawHRound1_len]
    omega
  have A3 : ∀ l1 l2 l3 c1 c2 c3 g i1 i2 i3 a,
      hget (computeHH P publicData i1 i2 i3 a
        (proveRawHRound2 P publicData l1 l2 l3 c1 c2 c3 g
          (proveRawHRound1 P spr publicData fullWitness h).2).2).2 r =
        hget h r :=
    fun l1 l2 l3 c1 c2 c3 g i1 i2 i3 a =>
      Eq.trans (computeHH_frame _ _ _ _ _ _ _ _ (hL2 l1 l2 l3 c1 c2 c3 g))
        (A2 l1 l2 l3 c1 c2 c3 g)
  delta ProveRawH
  dsimp only
  split
  · exact A1
  split
  · exact A1
  split
  · exact A1
  split
  · exact A1
  split
  · exact A1
  split
  · exact A1
  split
  · exact A1
  split
  · exact A2 _ _ _ _ _ _ _
  split
  · exact A2 _ _ _ _ _ _ _
  split
  · exact A2 _ _ _ _ _ _ _
  split
  · exact A3 _ _ _ _ _ _ _ _ _ _ _
  split
  · exact A3 _ _ _ _ _ _ _ _ _ _ _
  split
  · exact A3 _ _ _ _ _ _ _ _ _ _ _
  split
  · exact A3 _ _ _ _ _ _ _ _ _ _ _
  split
  · exact A3 _ _ _ _ _ _ _ _ _ _ _
  split
  · exact A3 _ _ _ _ _ _ _ _ _ _ _
  split
  · exact A3 _ _ _ _ _ _ _ _ _ _ _
  split
  · exact A3 _ _ _ _ _ _ _ _ _ _ _
  split
  · exact A3 _ _ _ _ _ _ _ _ _ _ _
  exact A3 _ _ _ _ _ _ _ _ _ _ _

/-- C5: in every successful run of `ProveRaw` the Fiat–Shamir transcript
carries the literal labels "gamma", "alpha", "zeta", and its operation
trace is exactly: absorb Comm(L), Comm(R), Comm(O) under "gamma", then
derive γ; absorb Comm(Z) under "alpha", then derive α; absorb Comm(H₁),
Comm(H₂), Comm(H₃) under "zeta", then derive ζ.  Each challenge is
derived only after every commitment it depends on has been absorbed, in
this fixed order. -/
theorem C5_fiat_shamir_order {F D B BP OP Err W E : Type} [Field F]
    (spr : SparseR1CS F W E) (publicData : PublicRaw F) (fullWitness : W)
    (P : Prims F D B BP OP Err) (pr : ProofRaw F D BP OP)
    (fs : Transcript B) (dL dR dO dZ dH1 dH2 dH3 : D)
    (h : ProveRawT spr publicData fullWitness P = .ok (pr, fs))
    (hdL : P.Commit (clOf P spr publicData fullWitness) = .ok dL)
    (hdR : P.Commit (crOf P spr publicData fullWitness) = .ok dR)
    (hdO : P.Commit (coOf P spr publicData fullWitness) = .ok dO)
    (hdZ : P.Commit (zcOf P spr publicData fullWitness
      (gammaOf P dL dR dO)) = .ok dZ)
    (hdH1 : P.Commit (h1Of P spr publicData fullWitness
      (gammaOf P dL dR dO) (alphaOf P dZ)) = .ok dH1)
    (hdH2 : P.Commit (h2Of P spr publicData fullWitness
      (gammaOf P dL dR dO) (alphaOf P dZ)) = .ok dH2)
    (hdH3 : P.Commit (h3Of P spr publicData fullWitness
      (gammaOf P dL dR dO) (alphaOf P dZ)) = .ok dH3) :
    fs.labels = ["gamma", "alpha", "zeta"] ∧
    fs.trace =
      [.bind "gamma" (P.Marshal dL), .bind "gamma" (P.Marshal dR),
       .bind "gamma" (P.Marshal dO), .challenge "gamma",
       .bind "alpha" (P.Marshal dZ), .challenge "alpha",
       .bind "zeta" (P.Marshal dH1), .bind "zeta" (P.Marshal dH2),
       .bind "zeta" (P.Marshal dH3), .challenge "zeta"] := by
  obtain ⟨dL', dR', dO', dZ', dH1', dH2', dH3', bo', oz', hdL', hdR', hdO',
    hdZ', hdH1', hdH2', hdH3', hbo', hoz', hpr, hfs⟩ :=
    (ProveRawT_ok_iff spr publicData fullWitness P pr fs).mp h
  rw [hdL] at hdL'
  injection hdL' with eL
  subst eL
  rw [hdR] at hdR'
  injection hdR' with eR
  subst eR
  rw [hdO] at hdO'
  injection hdO' with eO
  subst eO
  rw [hdZ] at hdZ'
  injection hdZ' with eZ
  subst eZ
  rw [hdH1] at hdH1'
  injection hdH1' with e1
  subst e1
  rw [hdH2] at hdH2'
  injection hdH2' with e2
  subst e2
  rw [hdH3] at hdH3'
  injection hdH3' with e3
  subst e3
  subst hfs
  exact ⟨rfl, rfl⟩

/-- C5 witness: the transcript of a concrete successful run over
`ZMod 5` with constant commitments. -/
theorem C5_fiat_shamir_order_witness :
    (finalTranscript cPrims 0 0 0 0 0 0 0).labels =
      ["gamma", "alpha", "zeta"] ∧
    (finalTranscript cPrims 0 0 0 0 0 0 0).trace =
      [.bind "gamma" 0, .bind "gamma" 0, .bind "gamma" 0,
       .challenge "gamma", .bind "alpha" 0, .challenge "alpha",
       .bind "zeta" 0, .bind "zeta" 0, .bind "zeta" 0,
       .challenge "zeta"] :=
  C5_fiat_shamir_order c7SPR c7PD () cPrims
    (finalProof cPrims c7SPR c7PD () 0 0 0 0 0 0 0 0 0)
    (finalTranscript cPrims 0 0 0 0 0 0 0) 0 0 0 0 0 0 0
    ((ProveRawT_ok_iff c7SPR c7PD () cPrims _ _).mpr
      ⟨0, 0, 0, 0, 0, 0, 0, 0, 0, rfl, rfl, rfl, rfl, rfl, rfl, rfl, rfl,
        rfl, rfl, rfl⟩)
    rfl rfl rfl rfl rfl rfl rfl

/-- C3: in every successful run of `ProveRaw`, `proof.LROZH[0]` is the
evaluation at ζ of the canonical-basis partial-L polynomial (the variant
that is zero on public-input rows), not of the full `cL`, and
`proof.ZShift` is the canonical Z polynomial evaluated at
`ζ · domain_num.generator`. -/
theorem C3_partialL_eval_and_zshift {F D B BP OP Err W E : Type} [Field F]
    (spr : SparseR1CS F W E) (publicData : PublicRaw F) (fullWitness : W)
    (P : Prims F D B BP OP Err) (pr : ProofRaw F D BP OP)
    (fs : Transcript B) (dL dR dO dZ dH1 dH2 dH3 : D)
    (h : ProveRawT spr publicData fullWitness P = .ok (pr, fs))
    (hdL : P.Commit (clOf P spr publicData fullWitness) = .ok dL)
    (hdR : P.Commit (crOf P spr publicData fullWitness) = .ok dR)
    (hdO : P.Commit (coOf P spr publicData fullWitness) = .ok dO)
    (hdZ : P.Commit (zcOf P spr publicData fullWitness
      (gammaOf P dL dR dO)) = .ok dZ)
    (hdH1 : P.Commit (h1Of P spr publicData fullWitness
      (gammaOf P dL dR dO) (alphaOf P dZ)) = .ok dH1)
    (hdH2 : P.Commit (h2Of P spr publicData fullWitness
      (gammaOf P dL dR dO) (alphaOf P dZ)) = .ok dH2)
    (hdH3 : P.Commit (h3Of P spr publicData fullWitness
      (gammaOf P dL dR dO) (alphaOf P dZ)) = .ok dH3) :
    pr.LROZH 0 = P.EvalPoly (partLcOf P spr publicData fullWitness)
      (zetaOf P dH1 dH2 dH3) ∧
    pr.ZShift = P.EvalPoly
      (zcOf P spr publicData fullWitness (gammaOf P dL dR dO))
      (zetaOf P dH1 dH2 dH3 * publicData.DomainNum.Generator) := by
  obtain ⟨dL', dR', dO', dZ', dH1', dH2', dH3', bo', oz', hdL', hdR', hdO',
    hdZ', hdH1', hdH2', hdH3', hbo', hoz', hpr, hfs⟩ :=
    (ProveRawT_ok_iff spr publicData fullWitness P pr fs).mp h
  rw [hdL] at hdL'
  injection hdL' with eL
  subst eL
  rw [hdR] at hdR'
  injection hdR' with eR
  subst eR
  rw [hdO] at hdO'
  injection hdO' with eO
  subst eO
  rw [hdZ] at hdZ'
  injection hdZ' with eZ
  subst eZ
  rw [hdH1] at hdH1'
  injection hdH1' with e1
  subst e1
  rw [hdH2] at hdH2'
  injection hdH2' with e2
  subst e2
  rw [hdH3] at hdH3'
  injection hdH3' with e3
  subst e3
  subst hpr
  exact ⟨rfl, rfl⟩

/-- C3 witness: the evaluation slots of a concrete successful run over
`ZMod 5`. -/
theorem C3_partialL_eval_and_zshift_witness :
    (finalProof cPrims c7SPR c7PD () 0 0 0 0 0 0 0 0 0).LROZH 0 =
      cPrims.EvalPoly (partLcOf cPrims c7SPR c7PD ()) 0 ∧
    (finalProof cPrims c7SPR c7PD () 0 0 0 0 0 0 0 0 0).ZShift =
      cPrims.EvalPoly (zcOf cPrims c7SPR c7PD () 0)
        (0 * c7PD.DomainNum.Generator) :=
  C3_partialL_eval_and_zshift c7SPR c7PD () cPrims
    (finalProof cPrims c7SPR c7PD () 0 0 0 0 0 0 0 0 0)
    (finalTranscript cPrims 0 0 0 0 0 0 0) 0 0 0 0 0 0 0
    ((ProveRawT_ok_iff c7SPR c7PD () cPrims _ _).mpr
      ⟨0, 0, 0, 0, 0, 0, 0, 0, 0, rfl, rfl, rfl, rfl, rfl, rfl, rfl, rfl,
        rfl, rfl, rfl⟩)
    rfl rfl rfl rfl rfl rfl rfl

/-- C1: the code discards the error of `spr.Solve`
(`solution, _ := spr.Solve(fullWitness)`): on a concrete system whose
`Solve` reports an unsatisfied-constraint error, `ProveRaw` still builds
a proof from the partial solution and returns it with a nil error,
instead of bubbling the error up. -/
theorem C1_solve_error_discarded :
    ((c1SPR.Solve ()).2 = some ()) ∧
    ProveRawT c1SPR c7PD () cPrims =
      .ok (finalProof cPrims c1SPR c7PD () 0 0 0 0 0 0 0 0 0,
           finalTranscript cPrims 0 0 0 0 0 0 0) ∧
    ProveRaw c1SPR c7PD () cPrims =
      .ok (finalProof cPrims c1SPR c7PD () 0 0 0 0 0 0 0 0 0) := by
  have hT : ProveRawT c1SPR c7PD () cPrims =
      .ok (finalProof cPrims c1SPR c7PD () 0 0 0 0 0 0 0 0 0,
           finalTranscript cPrims 0 0 0 0 0 0 0) :=
    (ProveRawT_ok_iff c1SPR c7PD () cPrims _ _).mpr
      ⟨0, 0, 0, 0, 0, 0, 0, 0, 0, rfl, rfl, rfl, rfl, rfl, rfl, rfl, rfl,
        rfl, rfl, rfl⟩
  refine ⟨rfl, hT, ?_⟩
  rw [ProveRaw, hT]
  rfl

theorem getD_set_ne {F : Type} [Field F] (L : List F) (i j : Nat) (v : F)
    (h : i ≠ j) : (L.set i v).getD j 0 = L.getD j 0 := by
  rw [List.getD_eq_getElem?_getD, List.getElem?_set_ne h,
    ← List.getD_eq_getElem?_getD]

theorem getD_set_eq {F : Type} [Field F] (L : List F) (i : Nat) (v : F)
    (h : i < L.length) : (L.set i v).getD i 0 = v := by
  rw [List.getD_eq_getElem?_getD, List.getElem?_set_eq_of_lt v h]
  rfl

theorem getD_replicate_zero {F : Type} [Field F] (n j : Nat) :
    (List.replicate n (0 : F)).getD j 0 = 0 := by
  rw [List.getD_eq_getElem?_getD, List.getElem?_replicate]
  by_cases h : j < n <;> simp [h]

theorem lroFoldPublic_char {F : Type} [Field F] (solution : List F)
    (st : List F × List F × List F × List F) (s : Nat)
    (h1 : st.1.length = s) (h2 : st.2.1.length = s)
    (h3 : st.2.2.1.length = s) :
    ∀ k, k ≤ s →
      (lroFoldPublic solution st k).1.length = s ∧
      (lroFoldPublic solution st k).2.1.length = s ∧
      (lroFoldPublic solution st k).2.2.1.length = s ∧
      (lroFoldPublic solution st k).2.2.2 = st.2.2.2 ∧
      (∀ j, k ≤ j →
        (lroFoldPublic solution st k).1.getD j 0 = st.1.getD j 0 ∧
        (lroFoldPublic solution st k).2.1.getD j 0 = st.2.1.getD j 0 ∧
        (lroFoldPublic solution st k).2.2.1.getD j 0 = st.2.2.1.getD j 0) ∧
      (∀ i, i < k →
        (lroFoldPublic solution st k).1.getD i 0 = solution.getD i 0 ∧
        (lroFoldPublic solution st k).2.1.getD i 0 = solution.getD 0 0 ∧
        (lroFoldPublic solution st k).2.2.1.getD i 0 = solution.getD 0 0) := by
  intro k
  induction k with
  | zero =>
      intro _
      exact ⟨h1, h2, h3, rfl, fun j _ => ⟨rfl, rfl, rfl⟩,
        fun i hi => absurd hi (Nat.not_lt_zero i)⟩
  | succ k ih =>
      intro hk
      obtain ⟨ih1, ih2, ih3, ih4, ihout, ihin⟩ := ih (Nat.le_of_succ_le hk)
      have hsucc : lroFoldPublic solution st (k + 1) =
          lroPublicStep solution (lroFoldPublic solution st k) k := by
        unfold lroFoldPublic
        rw [List.range_succ, List.foldl_append]
        rfl
      rw [hsucc]
      simp only [lroPublicStep, List.length_set]
      refine ⟨ih1, ih2, ih3, ih4, ?_, ?_⟩
      · intro j hj
        refine ⟨?_, ?_, ?_⟩ <;>
          rw [getD_set_ne _ _ _ _ (by omega)]
        · exact (ihout j (by omega)).1
        · exact (ihout j (by omega)).2.1
        · exact (ihout j (by omega)).2.2
      · intro i hi
        rcases Nat.lt_or_ge i k with h | h
        · refine ⟨?_, ?_, ?_⟩ <;> rw [getD_set_ne _ _ _ _ (by omega)]
          · exact (ihin i h).1
          · exact (ihin i h).2.1
          · exact (ihin i h).2.2
        · have hik : i = k := by omega
          subst hik
          refine ⟨?_, ?_, ?_⟩ <;>
            rw [getD_set_eq _ _ _ (by omega)]

theorem lroFoldGate_char {F : Type} [Field F] (cs : List PlonkConstraint)
    (solution : List F) (offset : Nat)
    (st : List F × List F × List F × List F) (s : Nat)
    (h1 : st.1.length = s) (h2 : st.2.1.length = s)
    (h3 : st.2.2.1.length = s) (h4 : st.2.2.2.length = s) :
    ∀ k, offset + k ≤ s →
      (lroFoldGate cs solution offset st k).1.length = s ∧
      (lroFoldGate cs solution offset st k).2.1.length = s ∧
      (lroFoldGate cs solution offset st k).2.2.1.length = s ∧
      (lroFoldGate cs solution offset st k).2.2.2.length = s ∧
      (∀ j, j < offset ∨ offset + k ≤ j →
        (lroFoldGate cs solution offset st k).1.getD j 0 = st.1.getD j 0 ∧
        (lroFoldGate cs solution offset st k).2.1.getD j 0 = st.2.1.getD j 0 ∧
        (lroFoldGate cs solution offset st k).2.2.1.getD j 0 = st.2.2.1.getD j 0 ∧
        (lroFoldGate cs solution offset st k).2.2.2.getD j 0 = st.2.2.2.getD j 0) ∧
      (∀ i, i < k →
        (lroFoldGate cs solution offset st k).1.getD (offset + i) 0 =
          solution.getD (cs.getD i cZero).L.VariableID 0 ∧
        (lroFoldGate cs solution offset st k).2.1.getD (offset + i) 0 =
          solution.getD (cs.getD i cZero).R.VariableID 0 ∧
        (lroFoldGate cs solution offset st k).2.2.1.getD (offset + i) 0 =
          solution.getD (cs.getD i cZero).O.VariableID 0 ∧
        (lroFoldGate cs solution offset st k).2.2.2.getD (offset + i) 0 =
          solution.getD (cs.getD i cZero).L.VariableID 0) := by
  intro k
  induction k with
  | zero =>
      intro _
      exact ⟨h1, h2, h3, h4, fun j _ => ⟨rfl, rfl, rfl, rfl⟩,
        fun i hi => absurd hi (Nat.not_lt_zero i)⟩
  | succ k ih =>
      intro hk
      obtain ⟨ih1, ih2, ih3, ih4, ihout, ihin⟩ := ih (by omega)
      have hsucc : lroFoldGate cs solution offset st (k + 1) =
          lroGateStep cs solution offset
            (lroFoldGate cs solution offset st k) k := by
        unfold lroFoldGate
        rw [List.range_succ, List.foldl_append]
        rfl
      rw [hsucc]
      simp only [lroGateStep, List.length_set]
      have hLval : ((lroFoldGate cs solution offset st k).1.set (offset + k)
          (solution.getD (cs.getD k cZero).L.VariableID 0)).getD
          (offset + k) 0 = solution.getD (cs.getD k cZero).L.VariableID 0 :=
        getD_set_eq _ _ _ (by omega)
      refine ⟨ih1, ih2, ih3, ih4, ?_, ?_⟩
      · intro j hj
        have hne : offset + k ≠ j := by omega
        refine ⟨?_, ?_, ?_, ?_⟩ <;> rw [getD_set_ne _ _ _ _ hne]
        · exact (ihout j (by omega)).1
        · exact (ihout j (by omega)).2.1
        · exact (ihout j (by omega)).2.2.1
        · exact (ihout j (by omega)).2.2.2
      · intro i hi
        rcases Nat.lt_or_ge i k with h | h
        · have hne : offset + k ≠ offset + i := by omega
          refine ⟨?_, ?_, ?_, ?_⟩ <;> rw [getD_set_ne _ _ _ _ hne]
          · exact (ihin i h).1
          · exact (ihin i h).2.1
          · exact (ihin i h).2.2.1
          · exact (ihin i h).2.2.2
        · have hik : i = k := by omega
          subst hik
          refine ⟨?_, ?_, ?_, ?_⟩
          · exact hLval
          · exact getD_set_eq _ _ _ (by omega)
          · exact getD_set_eq _ _ _ (by omega)
          · rw [getD_set_eq _ _ _ (by omega)]
            exact hLval

theorem lroFoldTail_char {F : Type} [Field F] (solution : List F)
    (offset : Nat) (st : List F × List F × List F × List F) (s : Nat)
    (h1 : st.1.length = s) (h2 : st.2.1.length = s)
    (h3 : st.2.2.1.length = s) (h4 : st.2.2.2.length = s) :
    ∀ k, offset + k ≤ s →
      (lroFoldTail solution offset st k).1.length = s ∧
      (lroFoldTail solution offset st k).2.1.length = s ∧
      (lroFoldTail solution offset st k).2.2.1.length = s ∧
      (lroFoldTail solution offset st k).2.2.2.length = s ∧
      (∀ j, j < offset ∨ offset + k ≤ j →
        (lroFoldTail solution offset st k).1.getD j 0 = st.1.getD j 0 ∧
        (lroFoldTail solution offset st k).2.1.getD j 0 = st.2.1.getD j 0 ∧
        (lroFoldTail solution offset st k).2.2.1.getD j 0 = st.2.2.1.getD j 0 ∧
        (lroFoldTail solution offset st k).2.2.2.getD j 0 = st.2.2.2.getD j 0) ∧
      (∀ i, i < k →
        (lroFoldTail solution offset st k).1.getD (offset + i) 0 =
          solution.getD 0 0 ∧
        (lroFoldTail solution offset st k).2.1.getD (offset + i) 0 =
          solution.getD 0 0 ∧
        (lroFoldTail solution offset st k).2.2.1.getD (offset + i) 0 =
          solution.getD 0 0 ∧
        (lroFoldTail solution offset st k).2.2.2.getD (offset + i) 0 =
          solution.getD 0 0) := by
  intro k
  induction k with
  | zero =>
      intro _
      exact ⟨h1, h2, h3, h4, fun j _ => ⟨rfl, rfl, rfl, rfl⟩,
        fun i hi => absurd hi (Nat.not_lt_zero i)⟩
  | succ k ih =>
      intro hk
      obtain ⟨ih1, ih2, ih3, ih4, ihout, ihin⟩ := ih (by omega)
      have hsucc : lroFoldTail solution offset st (k + 1) =
          lroTailStep solution offset (lroFoldTail solution offset st k) k := by
        unfold lroFoldTail
        rw [List.range_succ, List.foldl_append]
        rfl
      rw [hsucc]
      simp only [lroTailStep, List.length_set]
      have hLval : ((lroFoldTail solution offset st k).1.set (offset + k)
          (solution.getD 0 0)).getD (offset + k) 0 = solution.getD 0 0 :=
        getD_set_eq _ _ _ (by omega)
      refine ⟨ih1, ih2, ih3, ih4, ?_, ?_⟩
      · intro j hj
        have hne : offset + k ≠ j := by omega
        refine ⟨?_, ?_, ?_, ?_⟩ <;> rw [getD_set_ne _ _ _ _ hne]
        · exact (ihout j (by omega)).1
        · exact (ihout j (by omega)).2.1
        · exact (ihout j (by omega)).2.2.1
        · exact (ihout j (by omega)).2.2.2
      · intro i hi
        rcases Nat.lt_or_ge i k with h | h
        · have hne : offset + k ≠ offset + i := by omega
          refine ⟨?_, ?_, ?_, ?_⟩ <;> rw [getD_set_ne _ _ _ _ hne]
          · exact (ihin i h).1
          · exact (ihin i h).2.1
          · exact (ihin i h).2.2.1
          · exact (ihin i h).2.2.2
        · have hik : i = k := by omega
          subst hik
          refine ⟨hLval, getD_set_eq _ _ _ (by omega),
            getD_set_eq _ _ _ (by omega), ?_⟩
          rw [getD_set_eq _ _ _ (by omega)]
          exact hLval

theorem shiftFold_length {F : Type} [Field F] (z : List F) (k : Nat) :
    ((List.range k).foldl (fun r i => r.set i (r.getD (i + 1) 0)) z).length =
      z.length := by
  induction k with
  | zero => rfl
  | succ k ih =>
      rw [List.range_succ, List.foldl_append]
      simp only [List.foldl_cons, List.foldl_nil, List.length_set]
      exact ih

theorem shiftFold_getD {F : Type} [Field F] (z : List F) :
    ∀ k : Nat, k < z.length → ∀ j : Nat,
      ((List.range k).foldl (fun r i => r.set i (r.getD (i + 1) 0)) z).getD j 0 =
        if j < k then z.getD (j + 1) 0 else z.getD j 0 := by
  intro k
  induction k with
  | zero => intro _ j; simp
  | succ k ih =>
      intro hk j
      have hk' : k < z.length := Nat.lt_of_succ_lt hk
      rw [List.range_succ, List.foldl_append]
      simp only [List.foldl_cons, List.foldl_nil]
      have hlen : ((List.range k).foldl
          (fun r i => r.set i (r.getD (i + 1) 0)) z).length = z.length :=
        shiftFold_length z k
      have hstep : ((List.range k).foldl
          (fun r i => r.set i (r.getD (i + 1) 0)) z).getD (k + 1) 0 =
          z.getD (k + 1) 0 := by
        rw [ih hk' (k + 1)]
        simp
      by_cases hj : j = k
      · subst hj
        rw [List.getD_eq_getElem?_getD,
          List.getElem?_set_eq_of_lt _ (by rw [hlen]; exact hk'), hstep]
        simp
      · rw [List.getD_eq_getElem?_getD, List.getElem?_set_ne (Ne.symm hj),
          ← List.getD_eq_getElem?_getD, ih hk' j]
        rcases Nat.lt_or_ge j k with h | h
        · simp [h, Nat.lt_succ_of_lt h]
        · have h1 : ¬ j < k := Nat.not_lt.mpr h
          have h2 : ¬ j < k + 1 := by
            intro hcon
            exact hj (Nat.le_antisymm (Nat.lt_succ_iff.mp hcon) h)
          simp [h1, h2]

/-- C8: `shiftZ` is the Lagrange-basis shift by ω: `z'[i] = z[i+1]` for
`i < m-1`, `z'[m-1] = z[0]`, equivalently `z'[i] = z[(i+1) mod m]` for
every `i < m`;  the input is not modified (the Go function copies `z`
before shifting; in this pure embedding immutability is inherent, and the
freshness of the copy is proved separately in the heap model). -/
theorem C8_shiftZ_cyclic {F : Type} [Field F] (z : List F) (m : Nat)
    (hm : z.length = m) :
    (shiftZ z).length = m ∧
    (∀ i, i < m - 1 → (shiftZ z).getD i 0 = z.getD (i + 1) 0) ∧
    (shiftZ z).getD (m - 1) 0 = z.getD 0 0 ∧
    (∀ i, i < m → (shiftZ z).getD i 0 = z.getD ((i + 1) % m) 0) := by
  subst hm
  have hdef : shiftZ z =
      ((List.range (z.length - 1)).foldl
        (fun r i => r.set i (r.getD (i + 1) 0)) z).set
        (((List.range (z.length - 1)).foldl
          (fun r i => r.set i (r.getD (i + 1) 0)) z).length - 1)
        (z.getD 0 0) := rfl
  rcases Nat.eq_zero_or_pos z.length with h0 | h0
  · have hz : z = [] := List.eq_nil_of_length_eq_zero h0
    subst hz
    refine ⟨rfl, ?_, rfl, ?_⟩ <;> intro i hi <;> simp_all
  · have hlt : z.length - 1 < z.length := Nat.sub_lt h0 Nat.one_pos
    have hlen := shiftFold_length z (z.length - 1)
    have hget := shiftFold_getD z (z.length - 1) hlt
    have hfinal : ∀ j : Nat, (shiftZ z).getD j 0 =
        if j = z.length - 1 then z.getD 0 0
        else if j < z.length - 1 then z.getD (j + 1) 0 else z.getD j 0 := by
      intro j
      rw [hdef, hlen]
      by_cases hj : j = z.length - 1
      · subst hj
        rw [List.getD_eq_getElem?_getD,
          List.getElem?_set_eq_of_lt _ (by rw [hlen]; exact hlt)]
        simp
      · rw [List.getD_eq_getElem?_getD, List.getElem?_set_ne (Ne.symm hj),
          ← List.getD_eq_getElem?_getD, hget j]
        simp [hj]
    have hlenS : (shiftZ z).length = z.length := by
      rw [hdef]
      rw [List.length_set]
      exact hlen
    refine ⟨hlenS, ?_, ?_, ?_⟩
    · intro i hi
      rw [hfinal i]
      have : i ≠ z.length - 1 := Nat.ne_of_lt hi
      simp [this, hi]
    · rw [hfinal (z.length - 1)]
      simp
    · intro i hi
      rw [hfinal i]
      by_cases hj : i = z.length - 1
      · subst hj
        rw [Nat.sub_add_cancel h0, Nat.mod_self]
        simp
      · have hi' : i < z.length - 1 := by omega
        have h2 : i + 1 < z.length := by omega
        rw [Nat.mod_eq_of_lt h2]
        simp [hj, hi']

/-- C7: `ComputeLRO` returns four length-m Lagrange polynomials; on public
rows `l[i] = solution[i]`, `r[i] = o[i] = solution[0]` and `partialL` is
zero; on constraint and assertion rows the wires come from the solution at
the gate's L/R/O variable IDs and `partialL` tracks l; tail rows take
`solution[0]` with `partialL` tracking l. -/
theorem C7_ComputeLRO_zones {F : Type} [Field F] {W E : Type}
    (spr : SparseR1CS F W E) (publicData : PublicRaw F) (solution : List F)
    (m : Nat) (hm : publicData.DomainNum.Cardinality = m)
    (hfit : spr.NbPublicVariables + spr.Constraints.length +
      spr.Assertions.length ≤ m) :
    (ComputeLRO spr publicData solution).1.length = m ∧
    (ComputeLRO spr publicData solution).2.1.length = m ∧
    (ComputeLRO spr publicData solution).2.2.1.length = m ∧
    (ComputeLRO spr publicData solution).2.2.2.length = m ∧
    (∀ i, i < spr.NbPublicVariables →
      (ComputeLRO spr publicData solution).1.getD i 0 = solution.getD i 0 ∧
      (ComputeLRO spr publicData solution).2.1.getD i 0 = solution.getD 0 0 ∧
      (ComputeLRO spr publicData solution).2.2.1.getD i 0 = solution.getD 0 0 ∧
      (ComputeLRO spr publicData solution).2.2.2.getD i 0 = 0) ∧
    (∀ i, i < spr.Constraints.length →
      (ComputeLRO spr publicData solution).1.getD
          (spr.NbPublicVariables + i) 0 =
        solution.getD (spr.Constraints.getD i cZero).L.VariableID 0 ∧
      (ComputeLRO spr publicData solution).2.1.getD
          (spr.NbPublicVariables + i) 0 =
        solution.getD (spr.Constraints.getD i cZero).R.VariableID 0 ∧
      (ComputeLRO spr publicData solution).2.2.1.getD
          (spr.NbPublicVariables + i) 0 =
        solution.getD (spr.Constraints.getD i cZero).O.VariableID 0 ∧
      (ComputeLRO spr publicData solution).2.2.2.getD
          (spr.NbPublicVariables + i) 0 =
        (ComputeLRO spr publicData solution).1.getD
          (spr.NbPublicVariables + i) 0) ∧
    (∀ i, i < spr.Assertions.length →
      (ComputeLRO spr publicData solution).1.getD
          (spr.NbPublicVariables + spr.Constraints.length + i) 0 =
        solution.getD (spr.Assertions.getD i cZero).L.VariableID 0 ∧
      (ComputeLRO spr publicData solution).2.1.getD
          (spr.NbPublicVariables + spr.Constraints.length + i) 0 =
        solution.getD (spr.Assertions.getD i cZero).R.VariableID 0 ∧
      (ComputeLRO spr publicData solution).2.2.1.getD
          (spr.NbPublicVariables + spr.Constraints.length + i) 0 =
        solution.getD (spr.Assertions.getD i cZero).O.VariableID 0 ∧
      (ComputeLRO spr publicData solution).2.2.2.getD
          (spr.NbPublicVariables + spr.Constraints.length + i) 0 =
        (ComputeLRO spr publicData solution).1.getD
          (spr.NbPublicVariables + spr.Constraints.length + i) 0) ∧
    (∀ j, spr.NbPublicVariables + spr.Constraints.length +
        spr.Assertions.length ≤ j → j < m →
      (ComputeLRO spr publicData solution).1.getD j 0 = solution.getD 0 0 ∧
      (ComputeLRO spr publicData solution).2.1.getD j 0 = solution.getD 0 0 ∧
      (ComputeLRO spr publicData solution).2.2.1.getD j 0 = solution.getD 0 0 ∧
      (ComputeLRO spr publicData solution).2.2.2.getD j 0 =
        (ComputeLRO spr publicData solution).1.getD j 0) := by
  subst hm
  set s := publicData.DomainNum.Cardinality with hs
  set np := spr.NbPublicVariables with hnp
  set nc := spr.Constraints.length with hnc
  set na := spr.Assertions.length with hna
  set init : List F × List F × List F × List F :=
    (List.replicate s 0, List.replicate s 0, List.replicate s 0,
      List.replicate s 0) with hinit
  set st1 := lroFoldPublic solution init np with hst1
  set st2 := lroFoldGate spr.Constraints solution np st1 nc with hst2
  set st3 := lroFoldGate spr.Assertions solution (np + nc) st2 na with hst3
  set st4 := lroFoldTail solution (np + nc + na) st3 (s - (np + nc + na))
    with hst4
  have hdef : ComputeLRO spr publicData solution = st4 := rfl
  have P1 := lroFoldPublic_char solution init s (by simp [hinit])
    (by simp [hinit]) (by simp [hinit]) np (by omega)
  rw [← hst1] at P1
  obtain ⟨A1, A2, A3, A4, Aout, Ain⟩ := P1
  have hl4 : st1.2.2.2.length = s := by rw [A4]; simp [hinit]
  have P2 := lroFoldGate_char spr.Constraints solution np st1 s A1 A2 A3 hl4
    nc (by omega)
  rw [← hst2] at P2
  obtain ⟨B1, B2, B3, B4, Bout, Bin⟩ := P2
  have P3 := lroFoldGate_char spr.Assertions solution (np + nc) st2 s B1 B2 B3
    B4 na (by omega)
  rw [← hst3] at P3
  obtain ⟨C1, C2, C3, C4, Cout, Cin⟩ := P3
  have P4 := lroFoldTail_char solution (np + nc + na) st3 s C1 C2 C3 C4
    (s - (np + nc + na)) (by omega)
  rw [← hst4] at P4
  obtain ⟨D1, D2, D3, D4, Dout, Din⟩ := P4
  clear_value st1 st2 st3 st4 init
  rw [hdef]
  refine ⟨D1, D2, D3, D4, ?_, ?_, ?_, ?_⟩
  · intro i hi
    have t4 := Dout i (Or.inl (by omega))
    have t3 := Cout i (Or.inl (by omega))
    have t2 := Bout i (Or.inl (by omega))
    have t1 := Ain i hi
    refine ⟨?_, ?_, ?_, ?_⟩
    · rw [t4.1, t3.1, t2.1, t1.1]
    · rw [t4.2.1, t3.2.1, t2.2.1, t1.2.1]
    · rw [t4.2.2.1, t3.2.2.1, t2.2.2.1, t1.2.2]
    · rw [t4.2.2.2, t3.2.2.2, t2.2.2.2, A4, hinit]
      exact getD_replicate_zero s i
  · intro i hi
    have t4 := Dout (np + i) (Or.inl (by omega))
    have t3 := Cout (np + i) (Or.inl (by omega))
    have t2 := Bin i hi
    have hL : st4.1.getD (np + i) 0 =
        solution.getD (spr.Constraints.getD i cZero).L.VariableID 0 := by
      rw [t4.1, t3.1, t2.1]
    refine ⟨hL, ?_, ?_, ?_⟩
    · rw [t4.2.1, t3.2.1, t2.2.1]
    · rw [t4.2.2.1, t3.2.2.1, t2.2.2.1]
    · rw [hL, t4.2.2.2, t3.2.2.2, t2.2.2.2]
  · intro i hi
    have t4 := Dout (np + nc + i) (Or.inl (by omega))
    have t3 := Cin i hi
    have hL : st4.1.getD (np + nc + i) 0 =
        solution.getD (spr.Assertions.getD i cZero).L.VariableID 0 := by
      rw [t4.1, t3.1]
    refine ⟨hL, ?_, ?_, ?_⟩
    · rw [t4.2.1, t3.2.1]
    · rw [t4.2.2.1, t3.2.2.1]
    · rw [hL, t4.2.2.2, t3.2.2.2]
  · intro j hj1 hj2
    have heq : np + nc + na + (j - (np + nc + na)) = j := by omega
    have hlt : j - (np + nc + na) < s - (np + nc + na) :=
      Nat.sub_lt_sub_right hj1 hj2
    have t4 := Din (j - (np + nc + na)) hlt
    rw [heq] at t4
    refine ⟨t4.1, t4.2.1, t4.2.2.1, ?_⟩
    rw [t4.2.2.2, t4.1]

/-- C7 witness: the zone characterization on a concrete SR1CS over
`ZMod 5` with one public input, one constraint, one assertion and
cardinality 4. -/
theorem C7_ComputeLRO_zones_witness :
    (ComputeLRO c7SPR c7PD c7Sol).1.length = 4 ∧
    (ComputeLRO c7SPR c7PD c7Sol).1.getD 0 0 = c7Sol.getD 0 0 ∧
    (ComputeLRO c7SPR c7PD c7Sol).2.2.2.getD 0 0 = 0 ∧
    (ComputeLRO c7SPR c7PD c7Sol).1.getD 1 0 =
      c7Sol.getD (c7SPR.Constraints.getD 0 cZero).L.VariableID 0 ∧
    (ComputeLRO c7SPR c7PD c7Sol).2.2.2.getD 3 0 =
      (ComputeLRO c7SPR c7PD c7Sol).1.getD 3 0 := by
  have h := C7_ComputeLRO_zones c7SPR c7PD c7Sol 4 rfl (by decide)
  exact ⟨h.1, (h.2.2.2.2.1 0 (by decide)).1, (h.2.2.2.2.1 0 (by decide)).2.2.2,
    (h.2.2.2.2.2.1 0 (by decide)).1,
    (h.2.2.2.2.2.2.2 3 (by decide) (by decide)).2.2.2⟩

theorem computeZIter_succ {F : Type} [Field F] (l r o : List F)
    (publicData : PublicRaw F) (gamma : F) (k : Nat) :
    computeZIter l r o publicData gamma (k + 1) =
      computeZStep l r o publicData gamma
        (computeZIter l r o publicData gamma k) k := by
  unfold computeZIter
  rw [List.range_succ, List.foldl_append]
  rfl

theorem computeZIter_u {F : Type} [Field F] (l r o : List F)
    (publicData : PublicRaw F) (gamma : F) :
    ∀ k : Nat, (computeZIter l r o publicData gamma k).2 =
      (publicData.DomainNum.Generator ^ k,
       publicData.Shifter.1 * publicData.DomainNum.Generator ^ k,
       publicData.Shifter.2 * publicData.DomainNum.Generator ^ k) := by
  intro k
  induction k with
  | zero => simp [computeZIter]
  | succ k ih =>
      rw [computeZIter_succ]
      simp only [computeZStep]
      rw [ih]
      simp [pow_succ, mul_assoc]

theorem computeZIter_len {F : Type} [Field F] (l r o : List F)
    (publicData : PublicRaw F) (gamma : F) :
    ∀ k : Nat, (computeZIter l r o publicData gamma k).1.length =
      publicData.DomainNum.Cardinality := by
  intro k
  induction k with
  | zero => simp [computeZIter]
  | succ k ih =>
      rw [computeZIter_succ]
      simp only [computeZStep, List.length_set]
      exact ih

theorem computeZIter_succ_z {F : Type} [Field F] (l r o : List F)
    (publicData : PublicRaw F) (gamma : F) (k : Nat) :
    (computeZIter l r o publicData gamma (k + 1)).1 =
      (computeZIter l r o publicData gamma k).1.set (k + 1)
        ((computeZIter l r o publicData gamma k).1.getD k 0 *
          ((l.getD k 0 + publicData.DomainNum.Generator ^ k + gamma) *
           (r.getD k 0 +
             publicData.Shifter.1 * publicData.DomainNum.Generator ^ k + gamma) *
           (o.getD k 0 +
             publicData.Shifter.2 * publicData.DomainNum.Generator ^ k + gamma)) /
          ((l.getD k 0 + publicData.LS1.getD k 0 + gamma) *
           (r.getD k 0 + publicData.LS2.getD k 0 + gamma) *
           (o.getD k 0 + publicData.LS3.getD k 0 + gamma))) := by
  rw [computeZIter_succ]
  simp only [computeZStep]
  rw [computeZIter_u]

theorem computeZIter_stable {F : Type} [Field F] (l r o : List F)
    (publicData : PublicRaw F) (gamma : F) :
    ∀ k j : Nat, j ≤ k →
      (computeZIter l r o publicData gamma k).1.getD j 0 =
        (computeZIter l r o publicData gamma j).1.getD j 0 := by
  intro k
  induction k with
  | zero => intro j hj; rw [Nat.le_zero.mp hj]
  | succ k ih =>
      intro j hj
      rcases Nat.lt_or_ge j (k + 1) with h | h
      · have hj' : j ≤ k := Nat.lt_succ_iff.mp h
        rw [computeZIter_succ_z, List.getD_eq_getElem?_getD,
          List.getElem?_set_ne (by omega), ← List.getD_eq_getElem?_getD]
        exact ih j hj'
      · have : j = k + 1 := Nat.le_antisymm hj h
        rw [this]

theorem ComputeZ_eq_iter {F : Type} [Field F] (l r o : List F)
    (publicData : PublicRaw F) (gamma : F) :
    ComputeZ l r o publicData gamma =
      (computeZIter l r o publicData gamma
        (publicData.DomainNum.Cardinality - 1)).1 := rfl

theorem computeZ_init_getD {F : Type} [Field F] (c : Nat) (hc : 0 < c) :
    (((List.replicate c (0 : F)).set 0 1)).getD 0 0 = 1 := by
  rw [List.getD_eq_getElem?_getD,
    List.getElem?_set_eq_of_lt _ (by simpa using hc)]
  rfl

/-- C4: for Lagrange-basis `l, r, o` of length m and nonzero denominator
factors, `ComputeZ` returns a length-m polynomial with `Z[0] = 1` and the
grand-product recurrence
`Z[i+1] = Z[i]·(l[i]+ω^i+γ)(r[i]+k₁ω^i+γ)(o[i]+k₂ω^i+γ) /
((l[i]+LS1[i]+γ)(r[i]+LS2[i]+γ)(o[i]+LS3[i]+γ))` for `i ∈ [0, m-1)`. -/
theorem C4_ComputeZ_lagrange {F : Type} [Field F] (l r o : List F)
    (publicData : PublicRaw F) (gamma : F) (m : Nat)
    (hm : publicData.DomainNum.Cardinality = m) (hpos : 0 < m)
    (hl : l.length = m) (hr : r.length = m) (ho : o.length = m)
    (hden : ∀ i, i < m - 1 →
      l.getD i 0 + publicData.LS1.getD i 0 + gamma ≠ 0 ∧
      r.getD i 0 + publicData.LS2.getD i 0 + gamma ≠ 0 ∧
      o.getD i 0 + publicData.LS3.getD i 0 + gamma ≠ 0) :
    (ComputeZ l r o publicData gamma).length = m ∧
    (ComputeZ l r o publicData gamma).getD 0 0 = 1 ∧
    ∀ i, i + 1 < m →
      (ComputeZ l r o publicData gamma).getD (i + 1) 0 =
        (ComputeZ l r o publicData gamma).getD i 0 *
          ((l.getD i 0 + publicData.DomainNum.Generator ^ i + gamma) *
           (r.getD i 0 +
             publicData.Shifter.1 * publicData.DomainNum.Generator ^ i + gamma) *
           (o.getD i 0 +
             publicData.Shifter.2 * publicData.DomainNum.Generator ^ i + gamma)) /
          ((l.getD i 0 + publicData.LS1.getD i 0 + gamma) *
           (r.getD i 0 + publicData.LS2.getD i 0 + gamma) *
           (o.getD i 0 + publicData.LS3.getD i 0 + gamma)) := by
  subst hm
  set c := publicData.DomainNum.Cardinality with hc
  refine ⟨?_, ?_, ?_⟩
  · rw [ComputeZ_eq_iter]
    exact computeZIter_len l r o publicData gamma (c - 1)
  · rw [ComputeZ_eq_iter,
      computeZIter_stable l r o publicData gamma (c - 1) 0 (Nat.zero_le _)]
    show (((List.replicate c (0 : F)).set 0 1)).getD 0 0 = 1
    exact computeZ_init_getD c hpos
  · intro i hi
    have hi1 : i + 1 ≤ c - 1 := by omega
    have hlen : (computeZIter l r o publicData gamma i).1.length = c :=
      computeZIter_len l r o publicData gamma i
    rw [ComputeZ_eq_iter,
      computeZIter_stable l r o publicData gamma (c - 1) (i + 1) hi1,
      computeZIter_stable l r o publicData gamma (c - 1) i (by omega),
      computeZIter_succ_z, List.getD_eq_getElem?_getD,
      List.getElem?_set_eq_of_lt _ (by rw [hlen]; omega)]
    rfl

/-- C4 witness: the recurrence on a concrete length-2 instance over
`ZMod 5` with γ = 1 (all denominator factors equal 1). -/
theorem C4_ComputeZ_lagrange_witness :
    (ComputeZ ([0, 0] : List (ZMod 5)) [0, 0] [0, 0] c2PD 1).length = 2 ∧
    (ComputeZ ([0, 0] : List (ZMod 5)) [0, 0] [0, 0] c2PD 1).getD 0 0 = 1 := by
  have h := C4_ComputeZ_lagrange ([0, 0] : List (ZMod 5)) [0, 0] [0, 0] c2PD 1
    2 rfl (by norm_num) rfl rfl rfl (by
      intro i hi
      have hi0 : i = 0 := by omega
      subst hi0
      exact ⟨by decide, by decide, by decide⟩)
  exact ⟨h.1, h.2.1⟩

/-- C2 counterexample: `ComputeZ` has no error return; on a concrete input
whose first denominator factor `l[0]+LS1[0]+γ` is zero it still returns a
polynomial (here `[1, 0]`), the zero denominator being silently mapped
through `Inverse(0) = 0`. -/
theorem C2_ComputeZ_counterexample :
    (([0, 0] : List (ZMod 5)).getD 0 0 + c2PD.LS1.getD 0 0 + 0 = 0) ∧
    ComputeZ ([0, 0] : List (ZMod 5)) [0, 0] [0, 0] c2PD 0 = [1, 0] := by
  refine ⟨by decide, ?_⟩
  show (computeZIter ([0, 0] : List (ZMod 5)) [0, 0] [0, 0] c2PD 0 (0 + 1)).1 =
    [1, 0]
  rw [computeZIter_succ_z]
  have hg : (([0, 0] : List (ZMod 5)).getD 0 0 + c2PD.LS1.getD 0 0 + 0) *
      (([0, 0] : List (ZMod 5)).getD 0 0 + c2PD.LS2.getD 0 0 + 0) *
      (([0, 0] : List (ZMod 5)).getD 0 0 + c2PD.LS3.getD 0 0 + 0) = 0 := by
    decide
  rw [hg, div_zero]
  decide

/-- C2 amended: `ComputeZ` returns no error on a zero denominator factor.
Instead, because the field `Inverse` maps 0 to 0, the affected entry of
the returned (length-m) polynomial is silently set to zero:
if some factor of the denominator at step i is zero then `Z[i+1] = 0`. -/
theorem C2_ComputeZ_zero_denominator {F : Type} [Field F] (l r o : List F)
    (publicData : PublicRaw F) (gamma : F) (m : Nat)
    (hm : publicData.DomainNum.Cardinality = m) (i : Nat) (hi : i + 1 < m)
    (hzero : l.getD i 0 + publicData.LS1.getD i 0 + gamma = 0 ∨
      r.getD i 0 + publicData.LS2.getD i 0 + gamma = 0 ∨
      o.getD i 0 + publicData.LS3.getD i 0 + gamma = 0) :
    (ComputeZ l r o publicData gamma).length = m ∧
    (ComputeZ l r o publicData gamma).getD (i + 1) 0 = 0 := by
  subst hm
  set c := publicData.DomainNum.Cardinality with hc
  constructor
  · rw [ComputeZ_eq_iter]
    exact computeZIter_len l r o publicData gamma (c - 1)
  · have hi1 : i + 1 ≤ c - 1 := by omega
    have hlen : (computeZIter l r o publicData gamma i).1.length = c :=
      computeZIter_len l r o publicData gamma i
    rw [ComputeZ_eq_iter,
      computeZIter_stable l r o publicData gamma (c - 1) (i + 1) hi1,
      computeZIter_succ_z, List.getD_eq_getElem?_getD,
      List.getElem?_set_eq_of_lt _ (by rw [hlen]; omega)]
    have hg : (l.getD i 0 + publicData.LS1.getD i 0 + gamma) *
        (r.getD i 0 + publicData.LS2.getD i 0 + gamma) *
        (o.getD i 0 + publicData.LS3.getD i 0 + gamma) = 0 := by
      rcases hzero with h | h | h <;> rw [h] <;> ring
    rw [Option.getD_some]
    rw [hg, div_zero]

/-- C2 witness for the amended statement: the concrete zero-denominator run
(`γ = 0`, all wires and permutation values zero). -/
theorem C2_ComputeZ_zero_denominator_witness :
    (ComputeZ ([0, 0] : List (ZMod 5)) [0, 0] [0, 0] c2PD 0).length = 2 ∧
    (ComputeZ ([0, 0] : List (ZMod 5)) [0, 0] [0, 0] c2PD 0).getD 1 0 = 0 :=
  C2_ComputeZ_zero_denominator ([0, 0] : List (ZMod 5)) [0, 0] [0, 0] c2PD 0 2
    rfl 0 (by norm_num) (Or.inl (by decide))

theorem hornerFold_char {F : Type} [Field F]
    (constraintsInd constraintOrdering startsAtOne : List F) (alpha : F)
    (L : List F) :
    ∀ k, k ≤ L.length →
      (hornerFold constraintsInd constraintOrdering startsAtOne alpha
        L k).length = L.length ∧
      (∀ j, k ≤ j →
        (hornerFold constraintsInd constraintOrdering startsAtOne alpha
          L k).getD j 0 = L.getD j 0) ∧
      (∀ j, j < k →
        (hornerFold constraintsInd constraintOrdering startsAtOne alpha
          L k).getD j 0 =
          (startsAtOne.getD j 0 * alpha + constraintOrdering.getD j 0) *
            alpha + constraintsInd.getD j 0) := by
  intro k
  induction k with
  | zero =>
      intro _
      exact ⟨rfl, fun j _ => rfl, fun j hj => absurd hj (Nat.not_lt_zero j)⟩
  | succ k ih =>
      intro hk
      obtain ⟨ih1, ihout, ihin⟩ := ih (by omega)
      have hsucc : hornerFold constraintsInd constraintOrdering startsAtOne
          alpha L (k + 1) =
          hornerStep constraintsInd constraintOrdering startsAtOne alpha
            (hornerFold constraintsInd constraintOrdering startsAtOne alpha
              L k) k := by
        unfold hornerFold
        rw [List.range_succ, List.foldl_append]
        rfl
      rw [hsucc]
      simp only [hornerStep, List.length_set]
      refine ⟨ih1, ?_, ?_⟩
      · intro j hj
        rw [getD_set_ne _ _ _ _ (by omega)]
        exact ihout j (by omega)
      · intro j hj
        rcases Nat.lt_or_ge j k with h | h
        · rw [getD_set_ne _ _ _ _ (by omega)]
          exact ihin j h
        · have hjk : j = k := by omega
          subst hjk
          rw [getD_set_eq _ _ _ (by omega)]

theorem vanishingDivFold_char {F : Type} [Field F] (v0 v1 v2 v3 : F)
    (L : List F) :
    ∀ k, 4 * k ≤ L.length →
      (vanishingDivFold v0 v1 v2 v3 L k).length = L.length ∧
      (∀ j, 4 * k ≤ j →
        (vanishingDivFold v0 v1 v2 v3 L k).getD j 0 = L.getD j 0) ∧
      (∀ i, i < k →
        (vanishingDivFold v0 v1 v2 v3 L k).getD (4 * i) 0 =
          L.getD (4 * i) 0 * v0 ∧
        (vanishingDivFold v0 v1 v2 v3 L k).getD (4 * i + 1) 0 =
          L.getD (4 * i + 1) 0 * v1 ∧
        (vanishingDivFold v0 v1 v2 v3 L k).getD (4 * i + 2) 0 =
          L.getD (4 * i + 2) 0 * v2 ∧
        (vanishingDivFold v0 v1 v2 v3 L k).getD (4 * i + 3) 0 =
          L.getD (4 * i + 3) 0 * v3) := by
  intro k
  induction k with
  | zero =>
      intro _
      exact ⟨rfl, fun j _ => rfl, fun i hi => absurd hi (Nat.not_lt_zero i)⟩
  | succ k ih =>
      intro hk
      obtain ⟨ih1, ihout, ihin⟩ := ih (by omega)
      have hsucc : vanishingDivFold v0 v1 v2 v3 L (k + 1) =
          vanishingDivStep v0 v1 v2 v3 (vanishingDivFold v0 v1 v2 v3 L k)
            k := by
        unfold vanishingDivFold
        rw [List.range_succ, List.foldl_append]
        rfl
      rw [hsucc]
      simp only [vanishingDivStep, List.length_set]
      have e0 : (vanishingDivFold v0 v1 v2 v3 L k).getD (4 * k) 0 =
          L.getD (4 * k) 0 := ihout (4 * k) (by omega)
      have e1 : (vanishingDivFold v0 v1 v2 v3 L k).getD (4 * k + 1) 0 =
          L.getD (4 * k + 1) 0 := ihout (4 * k + 1) (by omega)
      have e2 : (vanishingDivFold v0 v1 v2 v3 L k).getD (4 * k + 2) 0 =
          L.getD (4 * k + 2) 0 := ihout (4 * k + 2) (by omega)
      have e3 : (vanishingDivFold v0 v1 v2 v3 L k).getD (4 * k + 3) 0 =
          L.getD (4 * k + 3) 0 := ihout (4 * k + 3) (by omega)
      refine ⟨ih1, ?_, ?_⟩
      · intro j hj
        rw [getD_set_ne _ _ _ _ (by omega), getD_set_ne _ _ _ _ (by omega),
          getD_set_ne _ _ _ _ (by omega), getD_set_ne _ _ _ _ (by omega)]
        exact ihout j (by omega)
      · intro i hi
        rcases Nat.lt_or_ge i k with h | h
        · refine ⟨?_, ?_, ?_, ?_⟩ <;>
            rw [getD_set_ne _ _ _ _ (by omega), getD_set_ne _ _ _ _ (by omega),
              getD_set_ne _ _ _ _ (by omega), getD_set_ne _ _ _ _ (by omega)]
          · exact (ihin i h).1
          · exact (ihin i h).2.1
          · exact (ihin i h).2.2.1
          · exact (ihin i h).2.2.2
        · have hik : i = k := by omega
          subst hik
          refine ⟨?_, ?_, ?_, ?_⟩
          · rw [getD_set_ne _ _ _ _ (by omega), getD_set_ne _ _ _ _ (by omega),
              getD_set_ne _ _ _ _ (by omega),
              getD_set_eq _ _ _ (by rw [ih1]; omega), e0]
          · rw [getD_set_ne _ _ _ _ (by omega), getD_set_ne _ _ _ _ (by omega),
              getD_set_eq _ _ _ (by simp only [List.length_set]; rw [ih1]; omega),
              e1]
          · rw [getD_set_ne _ _ _ _ (by omega),
              getD_set_eq _ _ _
                (by simp only [List.length_set]; rw [ih1]; omega),
              e2]
          · rw [getD_set_eq _ _ _
                (by simp only [List.length_set]; rw [ih1]; omega),
              e3]

/-- C6: `computeH` first Horner-combines the three inputs with α into
`h[i] = ((L₁(Z−1))[i]·α + perm[i])·α + gate[i]`, then multiplies each
`h[4i+j]` by `((ν^(2j+1))^m − 1)⁻¹`, inverse-FFTs on `DomainH` with coset
exponent 1, bit-reverses, and returns the three length-m slices,
discarding the last quarter. -/
theorem C6_computeH_pipeline {F D B BP OP Err : Type} [Field F]
    (P : Prims F D B BP OP Err) (publicData : PublicRaw F)
    (constraintsInd constraintOrdering startsAtOne : List F) (alpha : F)
    (m : Nat) (hm : publicData.DomainNum.Cardinality = m)
    (hH : publicData.DomainH.Cardinality = 4 * m) :
    (∀ i, i < 4 * m →
      (hornerFold constraintsInd constraintOrdering startsAtOne alpha
        (List.replicate (4 * m) 0) (4 * m)).getD i 0 =
        (startsAtOne.getD i 0 * alpha + constraintOrdering.getD i 0) *
          alpha + constraintsInd.getD i 0) ∧
    (∀ i, i < m → ∀ j, j < 4 →
      (vanishingDivFold
        (((publicData.DomainNum.FinerGenerator ^ 1) ^ m - 1)⁻¹)
        (((publicData.DomainNum.FinerGenerator ^ 3) ^ m - 1)⁻¹)
        (((publicData.DomainNum.FinerGenerator ^ 5) ^ m - 1)⁻¹)
        (((publicData.DomainNum.FinerGenerator ^ 7) ^ m - 1)⁻¹)
        (hornerFold constraintsInd constraintOrdering startsAtOne alpha
          (List.replicate (4 * m) 0) (4 * m)) m).getD (4 * i + j) 0 =
        (hornerFold constraintsInd constraintOrdering startsAtOne alpha
          (List.replicate (4 * m) 0) (4 * m)).getD (4 * i + j) 0 *
          (((publicData.DomainNum.FinerGenerator ^ (2 * j + 1)) ^ m -
            1)⁻¹)) ∧
    computeH P publicData constraintsInd constraintOrdering startsAtOne
        alpha =
      (copyInto (List.replicate m 0)
        ((P.BitReverse (P.FFTInverse publicData.DomainH
          (vanishingDivFold
            (((publicData.DomainNum.FinerGenerator ^ 1) ^ m - 1)⁻¹)
            (((publicData.DomainNum.FinerGenerator ^ 3) ^ m - 1)⁻¹)
            (((publicData.DomainNum.FinerGenerator ^ 5) ^ m - 1)⁻¹)
            (((publicData.DomainNum.FinerGenerator ^ 7) ^ m - 1)⁻¹)
            (hornerFold constraintsInd constraintOrdering startsAtOne alpha
              (List.replicate (4 * m) 0) (4 * m)) m) 1)).take m),
       copyInto (List.replicate m 0)
        (((P.BitReverse (P.FFTInverse publicData.DomainH
          (vanishingDivFold
            (((publicData.DomainNum.FinerGenerator ^ 1) ^ m - 1)⁻¹)
            (((publicData.DomainNum.FinerGenerator ^ 3) ^ m - 1)⁻¹)
            (((publicData.DomainNum.FinerGenerator ^ 5) ^ m - 1)⁻¹)
            (((publicData.DomainNum.FinerGenerator ^ 7) ^ m - 1)⁻¹)
            (hornerFold constraintsInd constraintOrdering startsAtOne alpha
              (List.replicate (4 * m) 0) (4 * m)) m) 1)).drop m).take m),
       copyInto (List.replicate m 0)
        (((P.BitReverse (P.FFTInverse publicData.DomainH
          (vanishingDivFold
            (((publicData.DomainNum.FinerGenerator ^ 1) ^ m - 1)⁻¹)
            (((publicData.DomainNum.FinerGenerator ^ 3) ^ m - 1)⁻¹)
            (((publicData.DomainNum.FinerGenerator ^ 5) ^ m - 1)⁻¹)
            (((publicData.DomainNum.FinerGenerator ^ 7) ^ m - 1)⁻¹)
            (hornerFold constraintsInd constraintOrdering startsAtOne alpha
              (List.replicate (4 * m) 0) (4 * m)) m) 1)).drop (2 * m)).take
          m)) := by
  subst hm
  set c := publicData.DomainNum.Cardinality with hc
  set nu := publicData.DomainNum.FinerGenerator with hnu
  have hhorner := hornerFold_char constraintsInd constraintOrdering
    startsAtOne alpha (List.replicate (4 * c) 0) (4 * c) (by simp)
  have hhlen : (hornerFold constraintsInd constraintOrdering startsAtOne
      alpha (List.replicate (4 * c) 0) (4 * c)).length = 4 * c := by
    rw [hhorner.1]
    simp
  have hdiv := vanishingDivFold_char
    (((nu ^ 1) ^ c - 1)⁻¹) (((nu ^ 3) ^ c - 1)⁻¹)
    (((nu ^ 5) ^ c - 1)⁻¹) (((nu ^ 7) ^ c - 1)⁻¹)
    (hornerFold constraintsInd constraintOrdering startsAtOne alpha
      (List.replicate (4 * c) 0) (4 * c)) c (by rw [hhlen])
  refine ⟨?_, ?_, ?_⟩
  · intro i hi
    exact hhorner.2.2 i hi
  · intro i hi j hj
    interval_cases j
    · have h := (hdiv.2.2 i hi).1
      norm_num at h ⊢
      exact h
    · have h := (hdiv.2.2 i hi).2.1
      norm_num at h ⊢
      exact h
    · have h := (hdiv.2.2 i hi).2.2.1
      norm_num at h ⊢
      exact h
    · have h := (hdiv.2.2 i hi).2.2.2
      norm_num at h ⊢
      exact h
  · simp only [computeH, hornerFold, vanishingDivFold, hH, ← hc, ← hnu]
    rw [show (nu : F) ^ 1 = nu from pow_one nu,
      show (nu : F) ^ 3 = nu * (nu * nu) from by ring,
      show (nu : F) ^ 5 = nu * (nu * nu) * (nu * nu) from by ring,
      show (nu : F) ^ 7 = nu * (nu * nu) * (nu * nu) * (nu * nu) from by
        ring]

/-- C6 witness: the Horner stage of `computeH` on concrete all-ones inputs
over `ZMod 5` with m = 4. -/
theorem C6_computeH_pipeline_witness :
    (hornerFold (List.replicate 16 (1 : ZMod 5)) (List.replicate 16 1)
      (List.replicate 16 1) 1 (List.replicate (4 * 4) 0) (4 * 4)).getD 0 0 =
      ((List.replicate 16 (1 : ZMod 5)).getD 0 0 * 1 +
        (List.replicate 16 (1 : ZMod 5)).getD 0 0) * 1 +
        (List.replicate 16 (1 : ZMod 5)).getD 0 0 :=
  (C6_computeH_pipeline cPrims c7PD (List.replicate 16 1)
    (List.replicate 16 1) (List.replicate 16 1) 1 4 rfl rfl).1 0
    (by norm_num)

/-- C8 witness: `shiftZ` on the concrete list `[1,2,3]` over `ZMod 5`. -/
theorem C8_shiftZ_cyclic_witness :
    (([1, 2, 3] : List (ZMod 5)).length = 3) ∧
    (shiftZ ([1, 2, 3] : List (ZMod 5))).getD 0 0 =
      ([1, 2, 3] : List (ZMod 5)).getD 1 0 ∧
    (shiftZ ([1, 2, 3] : List (ZMod 5))).getD 2 0 =
      ([1, 2, 3] : List (ZMod 5)).getD 0 0 :=
  ⟨rfl, (C8_shiftZ_cyclic ([1, 2, 3] : List (ZMod 5)) 3 rfl).2.1 0 (by decide),
    (C8_shiftZ_cyclic ([1, 2, 3] : List (ZMod 5)) 3 rfl).2.2.1⟩

end Plonk

namespace SwEmulated

/-- C10: the `decomposeScalarG1` callback errors exactly when the
unwrapped inputs do not have length 3 or the unwrapped outputs do not
have length 6; on success `outputs[4], outputs[5]` are the signed
scalar-split halves, `outputs[0] = |outputs[4]|` and
`outputs[1] = |outputs[5]|` are non-negative, and `outputs[2]`
(resp. `outputs[3]`) is 1 when `outputs[4]` (resp. `outputs[5]`) is
non-negative and 0 otherwise. -/
theorem C10_decomposeScalarG1_hint (splitScalar : ℤ → ℤ → ℤ → ℤ × ℤ)
    (inputs outputs : List ℤ) :
    ((inputs.length ≠ 3 ∨ outputs.length ≠ 6) →
      ∃ e, decomposeScalarG1Inner splitScalar inputs outputs = .error e) ∧
    (inputs.length = 3 → outputs.length = 6 →
      ∃ out, decomposeScalarG1Inner splitScalar inputs outputs = .ok out ∧
        out.getD 4 0 = (splitScalar (inputs.getD 0 0) (inputs.getD 2 0)
          (inputs.getD 1 0)).1 ∧
        out.getD 5 0 = (splitScalar (inputs.getD 0 0) (inputs.getD 2 0)
          (inputs.getD 1 0)).2 ∧
        out.getD 0 0 = |out.getD 4 0| ∧
        out.getD 1 0 = |out.getD 5 0| ∧
        0 ≤ out.getD 0 0 ∧ 0 ≤ out.getD 1 0 ∧
        out.getD 2 0 = (if 0 ≤ out.getD 4 0 then 1 else 0) ∧
        out.getD 3 0 = (if 0 ≤ out.getD 5 0 then 1 else 0)) := by
  constructor
  · intro h
    rcases h with h | h
    · exact ⟨"expecting three inputs", by
        simp [decomposeScalarG1Inner, h]⟩
    · by_cases h3 : inputs.length = 3
      · exact ⟨"expecting six outputs", by
          simp [decomposeScalarG1Inner, h3, h]⟩
      · exact ⟨"expecting three inputs", by
          simp [decomposeScalarG1Inner, h3]⟩
  · intro h3 h6
    match outputs, h6 with
    | [a0, a1, a2, a3, a4, a5], _ =>
      match inputs, h3 with
      | [b0, b1, b2], _ =>
        set sp := splitScalar b0 b2 b1 with hsp
        by_cases h1 : sp.1.sign = -1 <;> by_cases h2 : sp.2.sign = -1
        · have hn1 : sp.1 < 0 := Int.sign_eq_neg_one_iff_neg.mp h1
          have hn2 : sp.2 < 0 := Int.sign_eq_neg_one_iff_neg.mp h2
          refine ⟨[-sp.1, -sp.2, 0, 0, sp.1, sp.2], ?_, ?_, ?_, ?_, ?_, ?_,
            ?_, ?_, ?_⟩
          · simp [decomposeScalarG1Inner, ← hsp, h1, h2]
          · simp
          · simp
          · simp [abs_of_neg hn1]
          · simp [abs_of_neg hn2]
          · simp; omega
          · simp; omega
          · simp [hn1, not_le.mpr hn1]
          · simp [hn2, not_le.mpr hn2]
        · have hn1 : sp.1 < 0 := Int.sign_eq_neg_one_iff_neg.mp h1
          have hp2 : 0 ≤ sp.2 := by
            rcases Int.lt_or_le sp.2 0 with hlt | hle
            · exact absurd (Int.sign_eq_neg_one_iff_neg.mpr hlt) h2
            · exact hle
          refine ⟨[-sp.1, sp.2, 0, 1, sp.1, sp.2], ?_, ?_, ?_, ?_, ?_, ?_,
            ?_, ?_, ?_⟩
          · simp [decomposeScalarG1Inner, ← hsp, h1, h2]
          · simp
          · simp
          · simp [abs_of_neg hn1]
          · simp [abs_of_nonneg hp2]
          · simp; omega
          · simp; omega
          · simp [not_le.mpr hn1]
          · simp [hp2]
        · have hp1 : 0 ≤ sp.1 := by
            rcases Int.lt_or_le sp.1 0 with hlt | hle
            · exact absurd (Int.sign_eq_neg_one_iff_neg.mpr hlt) h1
            · exact hle
          have hn2 : sp.2 < 0 := Int.sign_eq_neg_one_iff_neg.mp h2
          refine ⟨[sp.1, -sp.2, 1, 0, sp.1, sp.2], ?_, ?_, ?_, ?_, ?_, ?_,
            ?_, ?_, ?_⟩
          · simp [decomposeScalarG1Inner, ← hsp, h1, h2]
          · simp
          · simp
          · simp [abs_of_nonneg hp1]
          · simp [abs_of_neg hn2]
          · simp; omega
          · simp; omega
          · simp [hp1]
          · simp [not_le.mpr hn2]
        · have hp1 : 0 ≤ sp.1 := by
            rcases Int.lt_or_le sp.1 0 with hlt | hle
            · exact absurd (Int.sign_eq_neg_one_iff_neg.mpr hlt) h1
            · exact hle
          have hp2 : 0 ≤ sp.2 := by
            rcases Int.lt_or_le sp.2 0 with hlt | hle
            · exact absurd (Int.sign_eq_neg_one_iff_neg.mpr hlt) h2
            · exact hle
          refine ⟨[sp.1, sp.2, 1, 1, sp.1, sp.2], ?_, ?_, ?_, ?_, ?_, ?_,
            ?_, ?_, ?_⟩
          · simp [decomposeScalarG1Inner, ← hsp, h1, h2]
          · simp
          · simp
          · simp [abs_of_nonneg hp1]
          · simp [abs_of_nonneg hp2]
          · simp; omega
          · simp; omega
          · simp [hp1]
          · simp [hp2]

/-- C10 witness: the callback on a concrete split and concrete
length-3 / length-6 unwrapped buffers. -/
theorem C10_decomposeScalarG1_hint_witness :
    (([5, 7, 11] : List ℤ).length = 3) ∧
    (([0, 0, 0, 0, 0, 0] : List ℤ).length = 6) ∧
    (decomposeScalarG1Inner cSplit [5, 7, 11] [0, 0, 0, 0, 0, 0]).isOk =
      true := by
  refine ⟨rfl, rfl, ?_⟩
  obtain ⟨out, heq, _⟩ :=
    (C10_decomposeScalarG1_hint cSplit [5, 7, 11] [0, 0, 0, 0, 0, 0]).2
      rfl rfl
  rw [heq]
  rfl

end SwEmulated
